import Mathlib

/-
Verification development for the alumni-connect backend (src/app.py).

The Python handlers are shallowly embedded: each Flask route handler becomes a
Lean function from the collection's state (a list of records) and the request
payload to the new state and an HTTP response.  Python dicts become association
lists `List (String × Val)`, Python scalars become the inductive `Val`, and
Python floats become `PyFloat` (finite rationals plus nan / inf / -inf, since
`float(...)` and the `<=` checks in the source are float operations; decimal
literals are modelled as exact rationals, which no claim distinguishes from
IEEE doubles).  `datetime.now().isoformat()` is modelled by passing the
timestamp string explicitly to each operation.  Paths where the Python code
would raise an uncaught exception inside a handler's `try` block (KeyError,
TypeError, AttributeError) are modelled as the 500 response produced by the
corresponding `except` clause; exception detail strings are abstracted away
(claims only inspect statuses and the listed body fields).  String operations
(`.lower()`, float literals, the email regex) are modelled over ASCII, which
covers every string appearing in the spec and the claims.
-/

namespace App

/-- Python float values: finite (modelled as the exact rational `n / d`, kept
as an unreduced numerator-denominator pair with `d ≠ 0` at every construction
site; comparisons are value-level, by cross-multiplication), nan, +inf, -inf. -/
inductive PyFloat where
  | fin (n : Int) (d : Nat)
  | nan
  | inf
  | ninf
deriving DecidableEq

/-- Python `x == y` on floats: value equality; nan is unequal to everything,
including itself. -/
def pyFloatEq : PyFloat → PyFloat → Bool
  | .fin n1 d1, .fin n2 d2 => n1 * (d2 : Int) == n2 * (d1 : Int)
  | .inf, .inf => true
  | .ninf, .ninf => true
  | _, _ => false

/-- Python `x <= y` on floats; any comparison with nan is False. -/
def PyFloat.le : PyFloat → PyFloat → Bool
  | .nan, _ => false
  | _, .nan => false
  | .ninf, _ => true
  | .inf, .inf => true
  | .inf, _ => false
  | .fin _ _, .inf => true
  | .fin _ _, .ninf => false
  | .fin n1 d1, .fin n2 d2 => decide (n1 * (d2 : Int) ≤ n2 * (d1 : Int))

/-- Python `x < y` on floats; any comparison with nan is False. -/
def PyFloat.lt : PyFloat → PyFloat → Bool
  | .nan, _ => false
  | _, .nan => false
  | .ninf, .ninf => false
  | .ninf, _ => true
  | .inf, _ => false
  | .fin _ _, .inf => true
  | .fin _ _, .ninf => false
  | .fin n1 d1, .fin n2 d2 => decide (n1 * (d2 : Int) < n2 * (d1 : Int))

/-- Python float addition (as used by `sum`); nan propagates, inf + -inf = nan. -/
def PyFloat.add : PyFloat → PyFloat → PyFloat
  | .nan, _ => .nan
  | _, .nan => .nan
  | .inf, .ninf => .nan
  | .ninf, .inf => .nan
  | .inf, _ => .inf
  | _, .inf => .inf
  | .ninf, _ => .ninf
  | _, .ninf => .ninf
  | .fin n1 d1, .fin n2 d2 => .fin (n1 * (d2 : Int) + n2 * (d1 : Int)) (d1 * d2)

/-- The float one, as stored for a Python int/bool. -/
def PyFloat.ofNat (n : Nat) : PyFloat := .fin (n : Int) 1

/-- ASCII lowercasing of one character (Python `.lower()` restricted to the
ASCII strings this development deals with). -/
def lowChar (c : Char) : Char :=
  if 'A' ≤ c ∧ c ≤ 'Z' then Char.ofNat (c.toNat + 32) else c

/-- ASCII `.lower()` on a string. -/
def strLower (s : String) : String := ⟨s.data.map lowChar⟩

/-- JSON-ish Python values as they occur in request payloads and stored records. -/
inductive Val where
  | null
  | bool (b : Bool)
  | num (x : PyFloat)
  | str (s : String)
  | list (xs : List Val)
  | dict (kvs : List (String × Val))

/-- A Python dict with string keys, as an association list (insertion order kept). -/
abbrev Rec := List (String × Val)

/-- First-occurrence lookup, `d[k]` / `k in d`. -/
def lookupF : Rec → String → Option Val
  | [], _ => none
  | (k', v) :: t, k => if k' == k then some v else lookupF t k

/-- Python `d.get(k)` (None when missing). -/
def getD (r : Rec) (k : String) : Val := (lookupF r k).getD .null

/-- Python `d.get(k, default)`. -/
def getDef (r : Rec) (k : String) (d : Val) : Val := (lookupF r k).getD d

/-- Python `d[k] = v`: replace in place if the key exists, else append. -/
def setF : Rec → String → Val → Rec
  | [], k, v => [(k, v)]
  | (k', v') :: t, k, v => if k' == k then (k, v) :: t else (k', v') :: setF t k v

/-- Remove the first binding of a key (used to compare a payload with the
payload that simply omits a field). -/
def eraseK : Rec → String → Rec
  | [], _ => []
  | (k', v) :: t, k => if k' == k then t else (k', v) :: eraseK t k

/-- The keys of a record, in order. -/
def keysOf (r : Rec) : List String := r.map Prod.fst

/-- Python truthiness (`if not x`); a float is truthy unless its value is
zero (nan and the infinities are truthy). -/
def truthy : Val → Bool
  | .null => false
  | .bool b => b
  | .num (.fin n _) => !(n == 0)
  | .num _ => true
  | .str s => !(s == "")
  | .list xs => !xs.isEmpty
  | .dict kvs => !kvs.isEmpty

/-- The `for field in required_fields: if not data.get(field)` loop: the first
required field whose value is absent or falsy. -/
def firstFalsy (req : List String) (p : Rec) : Option String :=
  req.find? (fun f => ! truthy (getD p f))

/-- The id of a record when it is stored as an integer (creates always store
`len(collection) + 1`, an int, i.e. a denominator-1 number). -/
def idOfRec (r : Rec) : Option Int :=
  match lookupF r "id" with
  | some (.num (.fin q 1)) => some q
  | _ => none

/-- A string-valued field of a record. -/
def strAt (r : Rec) (k : String) : Option String :=
  match lookupF r k with
  | some (.str s) => some s
  | _ => none

/-- Python `v == n` where `n` is the int from the `<int:...>` route converter
(value-level float/int comparison; other types compare unequal). -/
def valIsId (v : Val) (n : Nat) : Bool :=
  match v with
  | .num x => pyFloatEq x (.fin (n : Int) 1)
  | _ => false

/-- Python `v == s` where `s` is a query-parameter string: only equal strings
compare equal; any other type compares unequal (Python `==` across types). -/
def valEqStr (v : Val) (s : String) : Bool :=
  match v with
  | .str s' => s' == s
  | _ => false

/-- Python `len(v)` for values that have a length; `none` models TypeError. -/
def pyLen : Val → Option Nat
  | .str s => some s.length
  | .list xs => some xs.length
  | .dict kvs => some kvs.length
  | _ => none

/-- An HTTP response: status code and JSON body. -/
structure Resp where
  status : Nat
  body : Rec

/-- `jsonify({"error": msg}), code`. -/
def errResp (code : Nat) (msg : String) : Resp :=
  ⟨code, [("error", Val.str msg)]⟩

/-- ASCII whitespace stripped by Python `float(str)`. -/
def isWsChar (c : Char) : Bool :=
  c == ' ' || c == '\t' || c == '\n' || c == '\x0d' || c == '\x0b' || c == '\x0c'

/-- Strip leading and trailing whitespace. -/
def trimWs (cs : List Char) : List Char :=
  ((cs.dropWhile isWsChar).reverse.dropWhile isWsChar).reverse

/-- Read an optional sign; returns (isNegative, rest). -/
def readSign : List Char → Bool × List Char
  | '+' :: t => (false, t)
  | '-' :: t => (true, t)
  | cs => (false, cs)

/-- Continue a digit group after a digit was read: further digits, with single
underscores allowed only between digits (Python numeric-literal rule). -/
def udMore : List Char → Option (List Char)
  | [] => some []
  | '_' :: t =>
    match t with
    | [] => none
    | d :: t' => if d.isDigit then (udMore t').map (d :: ·) else none
  | c :: t => if c.isDigit then (udMore t).map (c :: ·) else none

/-- A nonempty digit group with optional internal underscores; returns the
digits with underscores removed. -/
def udGroup : List Char → Option (List Char)
  | [] => none
  | c :: t => if c.isDigit then (udMore t).map (c :: ·) else none

/-- Digits to a natural number. -/
def digitsToNat (ds : List Char) : Nat :=
  ds.foldl (fun a c => a * 10 + (c.toNat - 48)) 0

/-- Split at the first 'e'/'E' (mantissa, exponent chars if an 'e' occurred). -/
def splitAtExp : List Char → List Char × Option (List Char)
  | [] => ([], none)
  | c :: t =>
    if c == 'e' || c == 'E' then ([], some t)
    else
      let p := splitAtExp t
      (c :: p.1, p.2)

/-- Split at the first '.' (integer part, fraction chars if a dot occurred). -/
def splitAtDot : List Char → List Char × Option (List Char)
  | [] => ([], none)
  | c :: t =>
    if c == '.' then ([], some t)
    else
      let p := splitAtDot t
      (c :: p.1, p.2)

/-- The mantissa of a float literal as a numerator-denominator pair:
`digits`, `digits.`, `.digits` or `digits.digits`. -/
def parseMantissa (cs : List Char) : Option (Nat × Nat) :=
  let p := splitAtDot cs
  match p.2 with
  | none => (udGroup p.1).map (fun ds => (digitsToNat ds, 1))
  | some fp =>
    match p.1, fp with
    | [], [] => none
    | [], _ =>
      (udGroup fp).map (fun ds => (digitsToNat ds, 10 ^ ds.length))
    | ip, [] => (udGroup ip).map (fun ds => (digitsToNat ds, 1))
    | ip, _ =>
      match udGroup ip, udGroup fp with
      | some a, some b =>
        some (digitsToNat a * 10 ^ b.length + digitsToNat b, 10 ^ b.length)
      | _, _ => none

/-- The exponent of a float literal: optional sign then a digit group. -/
def parseExpInt (cs : List Char) : Option Int :=
  let sp := readSign cs
  (udGroup sp.2).map (fun ds =>
    if sp.1 then -(digitsToNat ds : Int) else (digitsToNat ds : Int))

/-- Scale a numerator-denominator pair by ten to an integer power. -/
def applyExp (m : Nat × Nat) : Int → Nat × Nat
  | .ofNat k => (m.1 * 10 ^ k, m.2)
  | .negSucc k => (m.1, m.2 * 10 ^ (k + 1))

/-- An unsigned decimal float literal (mantissa with optional exponent),
as a numerator-denominator pair. -/
def parseDecCore (cs : List Char) : Option (Nat × Nat) :=
  let p := splitAtExp cs
  match p.2 with
  | none => parseMantissa p.1
  | some ex =>
    match parseMantissa p.1, parseExpInt ex with
    | some m, some e => some (applyExp m e)
    | _, _ => none

/-- Python `float(s)` on a string: strip whitespace, optional sign, then a
decimal literal or `inf`/`infinity`/`nan` (case-insensitive).  Finite literals
are kept as exact rationals (IEEE rounding is not observable by any claim). -/
def parseFloatStr (s : String) : Option PyFloat :=
  let cs := trimWs s.toList
  let sp := readSign cs
  let low := sp.2.map lowChar
  if low == "inf".toList || low == "infinity".toList then
    some (if sp.1 then .ninf else .inf)
  else if low == "nan".toList then some .nan
  else
    (parseDecCore sp.2).map (fun m =>
      .fin (if sp.1 then -(m.1 : Int) else (m.1 : Int)) m.2)

/-- The ways `float(x)` can fail. -/
inductive PErr where
  | valueError
  | typeError

/-- Python `float(x)` on an arbitrary value: numbers and bools convert,
strings are parsed (ValueError on failure), anything else is a TypeError. -/
def pyFloatOfVal : Val → Except PErr PyFloat
  | .num x => .ok x
  | .bool b => .ok (.fin (if b then 1 else 0) 1)
  | .str s =>
    match parseFloatStr s with
    | some x => .ok x
    | none => .error .valueError
  | _ => .error .typeError

/-- Characters of the regex class `[a-zA-Z0-9._%+-]` (email local part). -/
def classLocal (c : Char) : Bool :=
  c.isAlpha || c.isDigit || c == '.' || c == '_' || c == '%' || c == '+' || c == '-'

/-- Characters of the regex class `[a-zA-Z0-9.-]` (email domain part). -/
def classDomain (c : Char) : Bool :=
  c.isAlpha || c.isDigit || c == '.' || c == '-'

/-- The domain side of the email regex: `[a-zA-Z0-9.-]+\.[a-zA-Z]{2,}`,
i.e. some split at a dot with a nonempty domain-class prefix and an
alphabetic suffix of length at least 2. -/
def domainOk (r : List Char) : Bool :=
  (List.range r.length).any (fun i =>
    decide (1 ≤ i) && (r.getD i ' ' == '.')
      && (r.take i).all classDomain
      && (r.drop (i + 1)).all Char.isAlpha
      && decide (2 ≤ r.length - (i + 1)))

/-- Split a character list on every occurrence of a character. -/
def splitAllOn (sep : Char) : List Char → List (List Char)
  | [] => [[]]
  | c :: t =>
    let ps := splitAllOn sep t
    if c == sep then [] :: ps
    else
      match ps with
      | [] => [[c]]
      | h :: r => (c :: h) :: r

/-- The email pattern without the `$`-before-newline allowance:
`^[a-zA-Z0-9._%+-]+@[a-zA-Z0-9.-]+\.[a-zA-Z]{2,}$`. -/
def emailCore (cs : List Char) : Bool :=
  match splitAllOn '@' cs with
  | [l, r] => !l.isEmpty && l.all classLocal && domainOk r
  | _ => false

/-- `validate_email` (src/app.py lines 26-28): `re.match(pattern, email)`.
Python's `$` also matches just before a single trailing newline. -/
def validEmail (email : String) : Bool :=
  let cs := email.toList
  emailCore cs
    || (!cs.isEmpty && cs.getLast? == some '\n' && emailCore (cs.dropLast))

/-- Python list/str containment helper: is one list a prefix of another. -/
def isPrefB : List Char → List Char → Bool
  | [], _ => true
  | _ :: _, [] => false
  | a :: xs, b :: ys => a == b && isPrefB xs ys

/-- `needle in hay` over character lists. -/
def containsSubL (hay needle : List Char) : Bool :=
  match hay with
  | [] => isPrefB needle []
  | _ :: t => isPrefB needle hay || containsSubL t needle

/-- Python `needle in hay` on strings. -/
def containsSub (hay needle : String) : Bool :=
  containsSubL hay.toList needle.toList

mutual

/-- Python `==` on values (used by `user['password'] != password` in login):
bools compare equal to the numbers 0/1, nan is unequal to itself, lists
compare pointwise, dicts compare as key-value maps. -/
def pyValEq : Val → Val → Bool
  | .null, .null => true
  | .bool a, .bool b => a == b
  | .bool a, .num x => pyFloatEq (.fin (if a then 1 else 0) 1) x
  | .num x, .bool b => pyFloatEq x (.fin (if b then 1 else 0) 1)
  | .num x, .num y => pyFloatEq x y
  | .str a, .str b => a == b
  | .list xs, .list ys => pyValEqL xs ys
  | .dict a, .dict b => a.length == b.length && pyValSub a b
  | _, _ => false

/-- Pointwise `==` on lists of values. -/
def pyValEqL : List Val → List Val → Bool
  | [], [] => true
  | x :: xs, y :: ys => pyValEq x y && pyValEqL xs ys
  | _, _ => false

/-- Every binding of the first dict is matched in the second. -/
def pyValSub : List (String × Val) → List (String × Val) → Bool
  | [], _ => true
  | (k, v) :: t, b =>
    (match lookupF b k with
     | some w => pyValEq v w
     | none => false)
      && pyValSub t b

end

/-- `find_user_by_email` (src/app.py lines 30-31): first user whose stored
email `==` the given string; a record without an 'email' key would raise
KeyError (`.error`), any non-string stored email simply compares unequal. -/
def findUserScan : List Rec → String → Except Unit (Option Rec)
  | [], _ => .ok none
  | u :: t, em =>
    match lookupF u "email" with
    | none => .error ()
    | some v => if valEqStr v em then .ok (some u) else findUserScan t em

/-- `jwt.encode(...)`: the token payload is determined by the user id and
email (the expiry is not inspected by any claim); modelled as an injective
string constructor. -/
def mkToken (uid : Nat) (email : String) : String :=
  "jwt." ++ toString uid ++ "." ++ email

/-- `register` (src/app.py lines 97-148).  `payload` is the parsed JSON body
(`[]` models both a missing and an empty body), `now` the current timestamp. -/
def register (users : List Rec) (payload : Rec) (now : String) :
    List Rec × Resp :=
  if payload.isEmpty then (users, errResp 400 "Request body is required")
  else
    match firstFalsy ["email", "password", "name"] payload with
    | some f => (users, errResp 400 (f ++ " is required"))
    | none =>
      match getD payload "email" with
      | .str em =>
        if ! validEmail em then (users, errResp 400 "Invalid email format")
        else
          match pyLen (getD payload "password") with
          | none => (users, errResp 500 "Registration failed")
          | some l =>
            if l < 6 then
              (users, errResp 400 "Password must be at least 6 characters")
            else
              match findUserScan users em with
              | .error _ => (users, errResp 500 "Registration failed")
              | .ok (some _) =>
                (users, errResp 409 "User with this email already exists")
              | .ok none =>
                let user : Rec :=
                  [("id", Val.num (.fin ((users.length : Int) + 1) 1)),
                   ("email", Val.str (strLower em)),
                   ("password", getD payload "password"),
                   ("name", getD payload "name"),
                   ("role", getDef payload "role" (.str "alumni")),
                   ("created_at", Val.str now)]
                let tok := mkToken (users.length + 1) (strLower em)
                let userResponse := user.filter (fun kv => kv.1 ≠ "password")
                (users ++ [user],
                 ⟨201, [("message", Val.str "User registered successfully"),
                        ("user", Val.dict userResponse),
                        ("token", Val.str tok)]⟩)
      | _ => (users, errResp 500 "Registration failed")

/-- `login` (src/app.py lines 150-185).  Does not change the store. -/
def login (users : List Rec) (payload : Rec) : Resp :=
  if payload.isEmpty then errResp 400 "Request body is required"
  else
    match getDef payload "email" (.str "") with
    | .str rawEm =>
      if strLower rawEm == ""
          || ! truthy (getDef payload "password" (.str "")) then
        errResp 400 "Email and password are required"
      else
        match findUserScan users (strLower rawEm) with
        | .error _ => errResp 500 "Login failed"
        | .ok none => errResp 401 "Invalid email or password"
        | .ok (some u) =>
          match lookupF u "password" with
          | none => errResp 500 "Login failed"
          | some stored =>
            if ! pyValEq stored (getDef payload "password" (.str "")) then
              errResp 401 "Invalid email or password"
            else
              match idOfRec u, lookupF u "email" with
              | some uid, some (.str uem) =>
                ⟨200, [("message", Val.str "Login successful"),
                       ("user", Val.dict (u.filter (fun kv => kv.1 ≠ "password"))),
                       ("token", Val.str (mkToken uid.toNat uem))]⟩
              | _, _ => errResp 500 "Login failed"
    | _ => errResp 500 "Login failed"

/-- `next((x for x in coll if x['id'] == n), None)`: index of the first record
whose id equals the route int; `.error` models the KeyError raised when a
scanned record has no 'id' key. -/
def findIdxScan : List Rec → Nat → Except Unit (Option Nat)
  | [], _ => .ok none
  | r :: t, n =>
    match lookupF r "id" with
    | none => .error ()
    | some v =>
      if valIsId v n then .ok (some 0)
      else (findIdxScan t n).map (Option.map (· + 1))

/-- `any(a['email'].lower() == data['email'].lower() for a in alumni)`:
lazily scans; `.error` models the crash on a record whose stored email is
missing or not a string (`.lower()` would fail). -/
def dupEmailScan : List Rec → String → Except Unit Bool
  | [], _ => .ok false
  | a :: t, em =>
    match lookupF a "email" with
    | some (.str s) =>
      if strLower s == strLower em then .ok true else dupEmailScan t em
    | _ => .error ()

/-- The alumni-update duplicate check (src/app.py line 295): first record with
the same lowercased email and a different id; evaluation order follows the
Python conjunction (email compared first, id only looked up on an email match). -/
def dupEmailExclScan : List Rec → String → Nat → Except Unit Bool
  | [], _, _ => .ok false
  | a :: t, em, n =>
    match lookupF a "email" with
    | some (.str s) =>
      if strLower s == strLower em then
        match lookupF a "id" with
        | none => .error ()
        | some v => if valIsId v n then dupEmailExclScan t em n else .ok true
      else dupEmailExclScan t em n
    | _ => .error ()

/-- `for key, value in data.items(): if key not in skip: rec[key] = value`. -/
def updateFields : Rec → Rec → List String → Rec
  | r, [], _ => r
  | r, (k, v) :: t, skip =>
    updateFields (if k ∈ skip then r else setF r k v) t skip

/-- The POST branch of `alumni_list` (src/app.py lines 192-237). -/
def alumniCreate (st : List Rec) (payload : Rec) (now : String) :
    List Rec × Resp :=
  if payload.isEmpty then (st, errResp 400 "Request body is required")
  else
    match firstFalsy ["name", "email", "batch", "department"] payload with
    | some f => (st, errResp 400 (f ++ " is required"))
    | none =>
      match getD payload "email" with
      | .str em =>
        if ! validEmail em then (st, errResp 400 "Invalid email format")
        else
          match dupEmailScan st em with
          | .error _ => (st, errResp 500 "Failed to create alumni profile")
          | .ok true =>
            (st, errResp 409 "Alumni with this email already exists")
          | .ok false =>
            let r : Rec :=
              [("id", Val.num (.fin ((st.length : Int) + 1) 1)),
               ("name", getD payload "name"),
               ("email", Val.str (strLower em)),
               ("batch", getD payload "batch"),
               ("department", getD payload "department"),
               ("phone", getDef payload "phone" (.str "")),
               ("current_company", getDef payload "current_company" (.str "")),
               ("current_position", getDef payload "current_position" (.str "")),
               ("location", getDef payload "location" (.str "")),
               ("bio", getDef payload "bio" (.str "")),
               ("linkedin", getDef payload "linkedin" (.str "")),
               ("profile_image", getDef payload "profile_image" (.str "")),
               ("graduation_year", getDef payload "graduation_year" (.str "")),
               ("created_at", Val.str now),
               ("updated_at", Val.str now)]
            (st ++ [r],
             ⟨201, [("message", Val.str "Alumni profile created successfully"),
                    ("alumni", Val.dict r)]⟩)
      | _ => (st, errResp 500 "Failed to create alumni profile")

/-- The GET branch of `alumni_detail` (src/app.py lines 274-282). -/
def alumniGet (st : List Rec) (n : Nat) : Resp :=
  match findIdxScan st n with
  | .error _ => errResp 500 "Operation failed"
  | .ok none => errResp 404 "Alumni not found"
  | .ok (some i) => ⟨200, [("alumni", Val.dict (st.getD i []))]⟩

/-- Overwrite the found record's fields (except id) and stamp `updated_at`;
the list holds the mutated object at the same position. -/
def applyUpdateAt (st : List Rec) (i : Nat) (payload : Rec) (now : String)
    (skip : List String) : List Rec × Rec :=
  let r := setF (updateFields (st.getD i []) payload skip) "updated_at" (.str now)
  (st.set i r, r)

/-- The PUT branch of `alumni_detail` (src/app.py lines 284-308). -/
def alumniUpdate (st : List Rec) (n : Nat) (payload : Rec) (now : String) :
    List Rec × Resp :=
  match findIdxScan st n with
  | .error _ => (st, errResp 500 "Operation failed")
  | .ok none => (st, errResp 404 "Alumni not found")
  | .ok (some i) =>
    if payload.isEmpty then (st, errResp 400 "Request body is required")
    else
      match lookupF payload "email" with
      | some (.str em) =>
        if ! validEmail em then (st, errResp 400 "Invalid email format")
        else
          match dupEmailExclScan st em n with
          | .error _ => (st, errResp 500 "Operation failed")
          | .ok true => (st, errResp 409 "Email already exists for another alumni")
          | .ok false =>
            let p := applyUpdateAt st i payload now ["id"]
            (p.1, ⟨200, [("message", Val.str "Alumni profile updated successfully"),
                         ("alumni", Val.dict p.2)]⟩)
      | some _ => (st, errResp 500 "Operation failed")
      | none =>
        let p := applyUpdateAt st i payload now ["id"]
        (p.1, ⟨200, [("message", Val.str "Alumni profile updated successfully"),
                     ("alumni", Val.dict p.2)]⟩)

/-- The DELETE branch of `alumni_detail` (src/app.py lines 310-312):
`alumni.remove(alum)` removes the found record (the first one with that id). -/
def alumniDelete (st : List Rec) (n : Nat) : List Rec × Resp :=
  match findIdxScan st n with
  | .error _ => (st, errResp 500 "Operation failed")
  | .ok none => (st, errResp 404 "Alumni not found")
  | .ok (some i) =>
    (st.eraseIdx i, ⟨200, [("message", Val.str "Alumni profile deleted successfully")]⟩)

/-- The POST branch of `event_list` (src/app.py lines 322-359). -/
def eventCreate (st : List Rec) (payload : Rec) (now : String) :
    List Rec × Resp :=
  if payload.isEmpty then (st, errResp 400 "Request body is required")
  else
    match firstFalsy ["title", "description", "date", "location"] payload with
    | some f => (st, errResp 400 (f ++ " is required"))
    | none =>
      let r : Rec :=
        [("id", Val.num (.fin ((st.length : Int) + 1) 1)),
         ("title", getD payload "title"),
         ("description", getD payload "description"),
         ("date", getD payload "date"),
         ("time", getDef payload "time" (.str "")),
         ("location", getD payload "location"),
         ("event_type", getDef payload "event_type" (.str "general")),
         ("max_attendees", getDef payload "max_attendees" .null),
         ("registration_required", getDef payload "registration_required" (.bool false)),
         ("organizer", getDef payload "organizer" (.str "")),
         ("contact_email", getDef payload "contact_email" (.str "")),
         ("image_url", getDef payload "image_url" (.str "")),
         ("status", Val.str "upcoming"),
         ("attendees", Val.list []),
         ("created_at", Val.str now),
         ("updated_at", Val.str now)]
      (st ++ [r],
       ⟨201, [("message", Val.str "Event created successfully"),
              ("event", Val.dict r)]⟩)

/-- The GET branch of `event_detail` (src/app.py lines 382-390). -/
def eventGet (st : List Rec) (n : Nat) : Resp :=
  match findIdxScan st n with
  | .error _ => errResp 500 "Operation failed"
  | .ok none => errResp 404 "Event not found"
  | .ok (some i) => ⟨200, [("event", Val.dict (st.getD i []))]⟩

/-- The PUT branch of `event_detail` (src/app.py lines 392-405). -/
def eventUpdate (st : List Rec) (n : Nat) (payload : Rec) (now : String) :
    List Rec × Resp :=
  match findIdxScan st n with
  | .error _ => (st, errResp 500 "Operation failed")
  | .ok none => (st, errResp 404 "Event not found")
  | .ok (some i) =>
    if payload.isEmpty then (st, errResp 400 "Request body is required")
    else
      let p := applyUpdateAt st i payload now ["id"]
      (p.1, ⟨200, [("message", Val.str "Event updated successfully"),
                   ("event", Val.dict p.2)]⟩)

/-- The DELETE branch of `event_detail` (src/app.py lines 407-409). -/
def eventDelete (st : List Rec) (n : Nat) : List Rec × Resp :=
  match findIdxScan st n with
  | .error _ => (st, errResp 500 "Operation failed")
  | .ok none => (st, errResp 404 "Event not found")
  | .ok (some i) =>
    (st.eraseIdx i, ⟨200, [("message", Val.str "Event deleted successfully")]⟩)

/-- The POST branch of `job_list` (src/app.py lines 419-456). -/
def jobCreate (st : List Rec) (payload : Rec) (now : String) :
    List Rec × Resp :=
  if payload.isEmpty then (st, errResp 400 "Request body is required")
  else
    match firstFalsy ["title", "company", "description", "location"] payload with
    | some f => (st, errResp 400 (f ++ " is required"))
    | none =>
      let r : Rec :=
        [("id", Val.num (.fin ((st.length : Int) + 1) 1)),
         ("title", getD payload "title"),
         ("company", getD payload "company"),
         ("description", getD payload "description"),
         ("location", getD payload "location"),
         ("job_type", getDef payload "job_type" (.str "full-time")),
         ("experience_level", getDef payload "experience_level" (.str "entry")),
         ("salary_range", getDef payload "salary_range" (.str "")),
         ("requirements", getDef payload "requirements" (.str "")),
         ("contact_email", getDef payload "contact_email" (.str "")),
         ("application_url", getDef payload "application_url" (.str "")),
         ("posted_by", getDef payload "posted_by" (.str "")),
         ("status", Val.str "active"),
         ("created_at", Val.str now),
         ("updated_at", Val.str now),
         ("expires_at", getDef payload "expires_at" (.str ""))]
      (st ++ [r],
       ⟨201, [("message", Val.str "Job posted successfully"),
              ("job", Val.dict r)]⟩)

/-- The GET branch of `job_detail` (src/app.py lines 483-491). -/
def jobGet (st : List Rec) (n : Nat) : Resp :=
  match findIdxScan st n with
  | .error _ => errResp 500 "Operation failed"
  | .ok none => errResp 404 "Job not found"
  | .ok (some i) => ⟨200, [("job", Val.dict (st.getD i []))]⟩

/-- The PUT branch of `job_detail` (src/app.py lines 493-506). -/
def jobUpdate (st : List Rec) (n : Nat) (payload : Rec) (now : String) :
    List Rec × Resp :=
  match findIdxScan st n with
  | .error _ => (st, errResp 500 "Operation failed")
  | .ok none => (st, errResp 404 "Job not found")
  | .ok (some i) =>
    if payload.isEmpty then (st, errResp 400 "Request body is required")
    else
      let p := applyUpdateAt st i payload now ["id"]
      (p.1, ⟨200, [("message", Val.str "Job updated successfully"),
                   ("job", Val.dict p.2)]⟩)

/-- The DELETE branch of `job_detail` (src/app.py lines 508-510). -/
def jobDelete (st : List Rec) (n : Nat) : List Rec × Resp :=
  match findIdxScan st n with
  | .error _ => (st, errResp 500 "Operation failed")
  | .ok none => (st, errResp 404 "Job not found")
  | .ok (some i) =>
    (st.eraseIdx i, ⟨200, [("message", Val.str "Job deleted successfully")]⟩)

/-- The POST branch of `donation_list` (src/app.py lines 520-557). -/
def donationCreate (st : List Rec) (payload : Rec) (now : String) :
    List Rec × Resp :=
  if payload.isEmpty then (st, errResp 400 "Request body is required")
  else
    match firstFalsy ["donor_name", "amount", "purpose"] payload with
    | some f => (st, errResp 400 (f ++ " is required"))
    | none =>
      match pyFloatOfVal (getD payload "amount") with
      | .error .valueError => (st, errResp 400 "Invalid amount format")
      | .error .typeError => (st, errResp 500 "Failed to record donation")
      | .ok amount =>
        if PyFloat.le amount (.fin 0 1) then
          (st, errResp 400 "Amount must be greater than 0")
        else
          let r : Rec :=
            [("id", Val.num (.fin ((st.length : Int) + 1) 1)),
             ("donor_name", getD payload "donor_name"),
             ("donor_email", getDef payload "donor_email" (.str "")),
             ("amount", Val.num amount),
             ("currency", getDef payload "currency" (.str "INR")),
             ("purpose", getD payload "purpose"),
             ("message", getDef payload "message" (.str "")),
             ("anonymous", getDef payload "anonymous" (.bool false)),
             ("payment_method", getDef payload "payment_method" (.str "")),
             ("transaction_id", getDef payload "transaction_id" (.str "")),
             ("status", Val.str "completed"),
             ("created_at", Val.str now)]
          (st ++ [r],
           ⟨201, [("message", Val.str "Donation recorded successfully"),
                  ("donation", Val.dict r)]⟩)

/-- Does a donation pass the purpose filter (`d.get('purpose','') == purpose`)? -/
def donPass (d : Rec) (purpose : String) : Bool :=
  valEqStr (getDef d "purpose" (.str "")) purpose

/-- `donation['donor_name'] = 'Anonymous'; donation['donor_email'] = ''`. -/
def redactD (d : Rec) : Rec :=
  setF (setF d "donor_name" (Val.str "Anonymous")) "donor_email" (Val.str "")

/-- `sum(d['amount'] for d in filtered_donations)`, starting from the int 0;
`.error` models the crash when a record's amount is missing or not summable
(bools count as 0/1 as in Python). -/
def sumAmounts : List Rec → PyFloat → Except Unit PyFloat
  | [], acc => .ok acc
  | d :: t, acc =>
    match lookupF d "amount" with
    | some (.num x) => sumAmounts t (PyFloat.add acc x)
    | some (.bool b) => sumAmounts t (PyFloat.add acc (.fin (if b then 1 else 0) 1))
    | _ => .error ()

/-- The GET branch of `donation_list` (src/app.py lines 562-586).  The
`filtered_donations = donations.copy()` is a SHALLOW copy: the redaction loop
mutates the stored records themselves, so the new store maps every filtered
anonymous record to its redacted form. -/
def donationListOp (st : List Rec) (purpose : String) : List Rec × Resp :=
  let pass := fun d => purpose == "" || donPass d purpose
  let anon := fun d => truthy (getDef d "anonymous" (.bool false))
  let newSt := st.map (fun d => if pass d && anon d then redactD d else d)
  let filtered := (st.filter pass).map (fun d => if anon d then redactD d else d)
  (newSt,
   match sumAmounts filtered (.fin 0 1) with
   | .error _ => errResp 500 "Failed to fetch donations"
   | .ok total =>
     ⟨200, [("donations", Val.list (filtered.map Val.dict)),
            ("total", Val.num (.fin (filtered.length : Int) 1)),
            ("total_amount", Val.num total)]⟩)

/-- `donation_detail` (src/app.py lines 588-598): GET by id, no redaction. -/
def donationDetail (st : List Rec) (n : Nat) : Resp :=
  match findIdxScan st n with
  | .error _ => errResp 500 "Operation failed"
  | .ok none => errResp 404 "Donation not found"
  | .ok (some i) => ⟨200, [("donation", Val.dict (st.getD i []))]⟩

/-- The POST branch of `post_list` (src/app.py lines 605-638). -/
def postCreate (st : List Rec) (payload : Rec) (now : String) :
    List Rec × Resp :=
  if payload.isEmpty then (st, errResp 400 "Request body is required")
  else
    match firstFalsy ["author_name", "content"] payload with
    | some f => (st, errResp 400 (f ++ " is required"))
    | none =>
      let r : Rec :=
        [("id", Val.num (.fin ((st.length : Int) + 1) 1)),
         ("author_name", getD payload "author_name"),
         ("author_email", getDef payload "author_email" (.str "")),
         ("author_batch", getDef payload "author_batch" (.str "")),
         ("content", getD payload "content"),
         ("post_type", getDef payload "post_type" (.str "general")),
         ("image_url", getDef payload "image_url" (.str "")),
         ("likes", Val.num (.fin 0 1)),
         ("comments", Val.list []),
         ("tags", getDef payload "tags" (.list [])),
         ("created_at", Val.str now),
         ("updated_at", Val.str now)]
      (st ++ [r],
       ⟨201, [("message", Val.str "Post created successfully"),
              ("post", Val.dict r)]⟩)

/-- The author substring filter of the posts list:
`author in p.get('author_name','').lower()`; `.error` models the crash on a
record whose stored author_name is not a string. -/
def authorScan (author : String) : List Rec → Except Unit (List Rec)
  | [] => .ok []
  | p :: t =>
    match getDef p "author_name" (.str "") with
    | .str s =>
      (authorScan author t).map
        (fun r => if containsSub (strLower s) author then p :: r else r)
    | _ => .error ()

/-- The sort key `x['created_at']` of a post. -/
def createdKey (r : Rec) : String :=
  match lookupF r "created_at" with
  | some (.str s) => s
  | _ => ""

/-- Python `s1 < s2` on strings: lexicographic by code point, a strict
prefix sorting first. -/
def strLtB : List Char → List Char → Bool
  | [], [] => false
  | [], _ :: _ => true
  | _ :: _, [] => false
  | a :: xs, b :: ys =>
    if a < b then true else if b < a then false else strLtB xs ys

/-- Python `s1 < s2` on strings. -/
def strLtS (x y : String) : Bool := strLtB x.data y.data

/-- Python `s1 <= s2` on strings. -/
def strLeB (x y : String) : Bool := !(strLtB y.data x.data)

/-- The descending-by-created_at order used by the posts list: `a` may come
before `b` when `b`'s key is at most `a`'s. -/
def postGe (a b : Rec) : Prop := strLeB (createdKey b) (createdKey a) = true

/-- One step of the stable sort: insert `a` before the first element whose
key is at most `a`'s. -/
def ordInsert (a : Rec) : List Rec → List Rec
  | [] => [a]
  | b :: t =>
    if strLeB (createdKey b) (createdKey a) then a :: b :: t
    else b :: ordInsert a t

/-- `sorted(l, key=lambda x: x['created_at'], reverse=True)`: a stable sort,
descending by created_at — equal keys keep their original order, as in
Python's sorted. -/
def sortDesc : List Rec → List Rec
  | [] => []
  | a :: t => ordInsert a (sortDesc t)

/-- Guard for `sorted(filtered_posts, key=lambda x: x['created_at'], ...)`:
`.error` when a record has no 'created_at' (KeyError) or when records of
several elements carry non-string keys that would make `<` raise.  (A
collection whose keys are uniformly numeric would sort in Python; post
records always carry the string stamped at creation, which update cannot
change, so that corner is modelled as a failure.) -/
def sortKeysOk (l : List Rec) : Except Unit Unit :=
  if l.all (fun r => (lookupF r "created_at").isSome) then
    if l.all (fun r =>
        match lookupF r "created_at" with
        | some (.str _) => true
        | _ => false) then .ok ()
    else if l.length ≤ 1 then .ok ()
    else .error ()
  else .error ()

/-- The filtered posts before sorting (the two list comprehensions of the GET
branch); the author filter may crash. -/
def postFiltered (st : List Rec) (ptype author : String) :
    Except Unit (List Rec) :=
  let f1 :=
    if ptype == "" then st
    else st.filter (fun p => valEqStr (getDef p "post_type" (.str "")) ptype)
  if author == "" then .ok f1 else authorScan author f1

/-- The GET branch of `post_list` (src/app.py lines 640-659): filter, then
stable sort by created_at descending. -/
def postListOp (st : List Rec) (ptype author : String) : Resp :=
  match postFiltered st ptype author with
  | .error _ => errResp 500 "Failed to fetch posts"
  | .ok f2 =>
    match sortKeysOk f2 with
    | .error _ => errResp 500 "Failed to fetch posts"
    | .ok _ =>
      let sortedPosts := sortDesc f2
      ⟨200, [("posts", Val.list (sortedPosts.map Val.dict)),
             ("total", Val.num (.fin (sortedPosts.length : Int) 1))]⟩

/-- The posts list carried by a posts-list response body. -/
def respPosts (resp : Resp) : List Rec :=
  match lookupF resp.body "posts" with
  | some (.list xs) =>
    xs.filterMap (fun v =>
      match v with
      | .dict r => some r
      | _ => none)
  | _ => []

/-- The GET branch of `post_detail` (src/app.py lines 664-672). -/
def postGet (st : List Rec) (n : Nat) : Resp :=
  match findIdxScan st n with
  | .error _ => errResp 500 "Operation failed"
  | .ok none => errResp 404 "Post not found"
  | .ok (some i) => ⟨200, [("post", Val.dict (st.getD i []))]⟩

/-- The PUT branch of `post_detail` (src/app.py lines 674-687): the update
loop skips both 'id' and 'created_at'. -/
def postUpdate (st : List Rec) (n : Nat) (payload : Rec) (now : String) :
    List Rec × Resp :=
  match findIdxScan st n with
  | .error _ => (st, errResp 500 "Operation failed")
  | .ok none => (st, errResp 404 "Post not found")
  | .ok (some i) =>
    if payload.isEmpty then (st, errResp 400 "Request body is required")
    else
      let p := applyUpdateAt st i payload now ["id", "created_at"]
      (p.1, ⟨200, [("message", Val.str "Post updated successfully"),
                   ("post", Val.dict p.2)]⟩)

/-- The DELETE branch of `post_detail` (src/app.py lines 689-691). -/
def postDelete (st : List Rec) (n : Nat) : List Rec × Resp :=
  match findIdxScan st n with
  | .error _ => (st, errResp 500 "Operation failed")
  | .ok none => (st, errResp 404 "Post not found")
  | .ok (some i) =>
    (st.eraseIdx i, ⟨200, [("message", Val.str "Post deleted successfully")]⟩)

/-- The POST branch of `message_list` (src/app.py lines 701-730). -/
def messageCreate (st : List Rec) (payload : Rec) (now : String) :
    List Rec × Resp :=
  if payload.isEmpty then (st, errResp 400 "Request body is required")
  else
    match firstFalsy ["sender_email", "recipient_email", "content"] payload with
    | some f => (st, errResp 400 (f ++ " is required"))
    | none =>
      let r : Rec :=
        [("id", Val.num (.fin ((st.length : Int) + 1) 1)),
         ("sender_email", getD payload "sender_email"),
         ("recipient_email", getD payload "recipient_email"),
         ("content", getD payload "content"),
         ("message_type", getDef payload "message_type" (.str "direct")),
         ("group_id", getDef payload "group_id" .null),
         ("read", Val.bool false),
         ("created_at", Val.str now)]
      (st ++ [r],
       ⟨201, [("message", Val.str "Message sent successfully"),
              ("message_data", Val.dict r)]⟩)

/-- The donor_name returned by a donation get-by-id. -/
def donationDetailName (st : List Rec) (n : Nat) : Option String :=
  match lookupF (donationDetail st n).body "donation" with
  | some (.dict d) => strAt d "donor_name"
  | _ => none

/-- A mutating operation on a CRUD collection (delete deliberately omitted:
it is handled separately). -/
inductive MOp where
  | mcreate (payload : Rec) (now : String)
  | mupdate (n : Nat) (payload : Rec) (now : String)

/-- One alumni create/update, projected to the store. -/
def alumniStep (st : List Rec) : MOp → List Rec
  | .mcreate p t => (alumniCreate st p t).1
  | .mupdate n p t => (alumniUpdate st n p t).1

/-- One event create/update, projected to the store. -/
def eventStep (st : List Rec) : MOp → List Rec
  | .mcreate p t => (eventCreate st p t).1
  | .mupdate n p t => (eventUpdate st n p t).1

/-- One job create/update, projected to the store. -/
def jobStep (st : List Rec) : MOp → List Rec
  | .mcreate p t => (jobCreate st p t).1
  | .mupdate n p t => (jobUpdate st n p t).1

/-- One post create/update, projected to the store. -/
def postStep (st : List Rec) : MOp → List Rec
  | .mcreate p t => (postCreate st p t).1
  | .mupdate n p t => (postUpdate st n p t).1

/-- The alumni store after a sequence of create/update operations from the
initial empty state. -/
def alumniRunOps (ops : List MOp) : List Rec := ops.foldl alumniStep []

/-- The events store after a sequence of create/update operations. -/
def eventRunOps (ops : List MOp) : List Rec := ops.foldl eventStep []

/-- The jobs store after a sequence of create/update operations. -/
def jobRunOps (ops : List MOp) : List Rec := ops.foldl jobStep []

/-- The posts store after a sequence of create/update operations. -/
def postRunOps (ops : List MOp) : List Rec := ops.foldl postStep []

/-- The users store after a sequence of register calls. -/
def registerRunOps (ops : List (Rec × String)) : List Rec :=
  ops.foldl (fun st pr => (register st pr.1 pr.2).1) []

/-- The messages store after a sequence of message creates. -/
def messageRunOps (ops : List (Rec × String)) : List Rec :=
  ops.foldl (fun st pr => (messageCreate st pr.1 pr.2).1) []

/-- An operation on the donations collection (its only routes: create, list,
get-by-id; get-by-id does not touch the store). -/
inductive DonOp where
  | dcreate (payload : Rec) (now : String)
  | dlist (purpose : String)

/-- One donation operation, projected to the store (list mutates the store
through the shallow-copy redaction). -/
def donationStep (st : List Rec) : DonOp → List Rec
  | .dcreate p t => (donationCreate st p t).1
  | .dlist pu => (donationListOp st pu).1

/-- The donations store after a sequence of operations from a given state. -/
def donationRunFrom (st : List Rec) (ops : List DonOp) : List Rec :=
  ops.foldl donationStep st

/-- Ids are exactly the positions plus one — the inductive invariant behind
`id = len(collection) + 1` under create/update (no delete). -/
def SeqIds (st : List Rec) : Prop :=
  ∀ i, i < st.length → idOfRec (st.getD i []) = some ((i : Int) + 1)

/-- The ids of a store, position by position. -/
def recIds (st : List Rec) : List (Option Int) := st.map idOfRec

/-- A transition that either rejects, appends a record with id `size + 1`, or
replaces one record in place preserving its id. -/
def GoodStep (s s' : List Rec) : Prop :=
  s' = s
    ∨ (∃ r, s' = s ++ [r] ∧ idOfRec r = some ((s.length : Int) + 1))
    ∨ (∃ i, i < s.length ∧
        ∃ r, s' = s.set i r ∧ idOfRec r = idOfRec (s.getD i []))

/-- Strictly descending by created_at. -/
def StrictDesc (l : List Rec) : Prop :=
  l.Pairwise (fun a b => strLtS (createdKey b) (createdKey a) = true)

/-- Every stored donation's amount passes the source's check: it is a number
`x` with `x <= 0` false (so positive, +inf, or nan). -/
def AmtOk (st : List Rec) : Prop :=
  ∀ d ∈ st, ∃ x, lookupF d "amount" = some (Val.num x) ∧
    PyFloat.le x (.fin 0 1) = false

/-- The claim's reading: every stored donation's amount is a strictly
positive number (`0 < x` in float comparison). -/
def DonAmountsPos (st : List Rec) : Prop :=
  ∀ d ∈ st, ∃ x, lookupF d "amount" = some (Val.num x) ∧
    PyFloat.lt (.fin 0 1) x = true

/-- No stored donation amount is nan. -/
def NoNanAmt (st : List Rec) : Prop :=
  ∀ d ∈ st, ∀ x, lookupF d "amount" = some (Val.num x) → x ≠ .nan

/-- A register payload whose email contains uppercase letters. -/
def regPayloadA : Rec :=
  [("email", Val.str "A@b.com"), ("password", Val.str "secret1"),
   ("name", Val.str "X")]

/-- A register payload with the email all lowercase. -/
def regPayloadLow : Rec :=
  [("email", Val.str "a@b.com"), ("password", Val.str "secret1"),
   ("name", Val.str "X")]

/-- An anonymous donation create payload. -/
def donPayloadAnon : Rec :=
  [("donor_name", Val.str "Alice"), ("amount", Val.str "100"),
   ("purpose", Val.str "library"), ("anonymous", Val.bool true)]

/-- The donations store holding just that anonymous donation. -/
def donStAnon : List Rec := (donationCreate [] donPayloadAnon "t0").1

/-- That store after one donation list call. -/
def donStAfterList : List Rec := (donationListOp donStAnon "").1

/-- A donation payload whose amount is the string "nan". -/
def donPayloadNan : Rec :=
  [("donor_name", Val.str "A"), ("amount", Val.str "nan"),
   ("purpose", Val.str "library")]

/-- The donations store after creating the nan-amount donation. -/
def donStNan : List Rec := (donationCreate [] donPayloadNan "t0").1

/-- A donation payload whose amount is a nonempty JSON list. -/
def donPayloadListAmt : Rec :=
  [("donor_name", Val.str "A"), ("amount", Val.list [Val.num (.fin 1 1)]),
   ("purpose", Val.str "library")]

/-- A valid alumni create payload. -/
def alPayload (nm em : String) : Rec :=
  [("name", Val.str nm), ("email", Val.str em),
   ("batch", Val.str "2020"), ("department", Val.str "CS")]

/-- An alumni store built by three creates (ids 1, 2, 3). -/
def alSt3 : List Rec :=
  (alumniCreate
    ((alumniCreate
      ((alumniCreate [] (alPayload "A" "a@x.co") "t1").1)
      (alPayload "B" "b@x.co") "t2").1)
    (alPayload "C" "c@x.co") "t3").1

/-- That store after deleting id 2. -/
def alStDel : List Rec := (alumniDelete alSt3 2).1

/-- That store after a further create: the new record also gets id 3. -/
def alStBad : List Rec :=
  (alumniCreate alStDel (alPayload "D" "d@x.co") "t4").1

/-- Two post payloads. -/
def postPayloadA : Rec :=
  [("author_name", Val.str "Ann"), ("content", Val.str "first")]

/-- Two post payloads. -/
def postPayloadB : Rec :=
  [("author_name", Val.str "Ben"), ("content", Val.str "second")]

/-- A posts store whose two posts carry the same created_at stamp (two
creates within the same timer tick). -/
def postStSameT : List Rec :=
  (postCreate ((postCreate [] postPayloadA "T").1) postPayloadB "T").1

/-- Shape of the donation-sum accumulator: a finite value with nonnegative
numerator, or +inf. -/
def NumOk : PyFloat → Prop
  | .fin n _ => 0 ≤ n
  | .inf => True
  | _ => False

theorem lookupF_setF_self (r : Rec) (k : String) (v : Val) :
    lookupF (setF r k v) k = some v := by
  induction r with
  | nil => simp [setF, lookupF]
  | cons h t ih =>
    obtain ⟨k', v'⟩ := h
    by_cases hk : k' = k
    · simp [setF, hk, lookupF]
    · simp [setF, hk, lookupF, ih]

theorem lookupF_setF_ne (r : Rec) (k k' : String) (v : Val) (h : k' ≠ k) :
    lookupF (setF r k v) k' = lookupF r k' := by
  have hb : (k == k') = false := beq_eq_false_iff_ne.mpr (Ne.symm h)
  induction r with
  | nil => simp [setF, lookupF, hb]
  | cons hd t ih =>
    obtain ⟨k0, v0⟩ := hd
    by_cases hk : k0 = k
    · subst hk
      simp [setF, lookupF, hb]
    · by_cases hk' : k0 = k'
      · subst hk'
        simp [setF, lookupF, hk]
      · simp [setF, lookupF, hk, hk', ih]

theorem lookupF_filter_out (r : Rec) (k : String) :
    lookupF (r.filter (fun kv => kv.1 ≠ k)) k = none := by
  induction r with
  | nil => simp [lookupF]
  | cons hd t ih =>
    obtain ⟨k0, v0⟩ := hd
    by_cases hk : k0 = k
    · subst hk
      simpa [List.filter_cons] using ih
    · simpa [List.filter_cons, hk, lookupF] using ih

theorem updateFields_skip (r : Rec) (p : Rec) (skip : List String)
    (k : String) (hk : k ∈ skip) :
    lookupF (updateFields r p skip) k = lookupF r k := by
  induction p generalizing r with
  | nil => simp [updateFields]
  | cons hd t ih =>
    obtain ⟨k0, v0⟩ := hd
    by_cases h0 : k0 ∈ skip
    · simp only [updateFields, if_pos h0]
      exact ih _
    · have hne : k ≠ k0 := fun he => h0 (he ▸ hk)
      simp only [updateFields, if_neg h0]
      rw [ih, lookupF_setF_ne _ _ _ _ hne]

theorem updateFields_absent (r : Rec) (p : Rec) (skip : List String)
    (k : String) (hk : k ∉ keysOf p) :
    lookupF (updateFields r p skip) k = lookupF r k := by
  induction p generalizing r with
  | nil => simp [updateFields]
  | cons hd t ih =>
    obtain ⟨k0, v0⟩ := hd
    have hne : k ≠ k0 := by
      intro he; exact hk (by simp [keysOf, he])
    have ht : k ∉ keysOf t := by
      intro hmem; exact hk (by simp [keysOf] at hmem ⊢; right; exact hmem)
    by_cases h0 : k0 ∈ skip
    · simp only [updateFields, if_pos h0]
      exact ih _ ht
    · simp only [updateFields, if_neg h0]
      rw [ih _ ht, lookupF_setF_ne _ _ _ _ hne]

theorem updateFields_mem (r : Rec) (p : Rec) (skip : List String)
    (k : String) (v : Val) (hmem : (k, v) ∈ p) (hnd : (keysOf p).Nodup)
    (hk : k ∉ skip) :
    lookupF (updateFields r p skip) k = some v := by
  induction p generalizing r with
  | nil => simp at hmem
  | cons hd t ih =>
    obtain ⟨k0, v0⟩ := hd
    have hnd2 : k0 ∉ keysOf t ∧ (keysOf t).Nodup := by
      have h := hnd
      simp only [keysOf, List.map_cons] at h
      exact List.nodup_cons.mp h
    rcases List.mem_cons.mp hmem with heq | htail
    · injection heq with h1 h2
      subst h1; subst h2
      simp only [updateFields, if_neg hk]
      rw [updateFields_absent _ _ _ _ hnd2.1, lookupF_setF_self]
    · simp only [updateFields]
      exact ih _ htail hnd2.2

/-- C3 (code bug): the spec says a second register whose email equals an
existing one up to ASCII case — including the very same string — fails with
ConflictError 409.  `register` stores emails lowercased (line 123) and
`login` lowercases before lookup (line 157), but `find_user_by_email` at
line 117 receives the raw payload email, so any email containing an
uppercase letter never matches a stored (lowercased) one: registering
"A@b.com" twice returns 201 twice and stores two users.  Only an
all-lowercase duplicate (here "a@b.com") gets the intended 409. -/
theorem register_mixed_case_email_registers_twice :
    (register [] regPayloadA "t1").2.status = 201
    ∧ (register (register [] regPayloadA "t1").1 regPayloadA "t2").2.status = 201
    ∧ (register (register [] regPayloadA "t1").1 regPayloadA "t2").1.length = 2
    ∧ (register (register [] regPayloadLow "t1").1 regPayloadLow "t2").2.status = 409 := by
  decide

/-- C4 (code bug): `filtered_donations = donations.copy()` is a shallow copy,
so the redaction loop of the donation list mutates the stored records.  For
an anonymous donation: the create succeeds, get-by-id initially returns the
unredacted donor_name "Alice", the list call returns 200 — but afterwards the
stored record itself holds donor_name "Anonymous" / donor_email "", and
get-by-id now returns "Anonymous", contradicting the claim that the list
operation never alters the stored record. -/
theorem donation_list_redacts_and_mutates_store :
    (donationCreate [] donPayloadAnon "t0").2.status = 201
    ∧ strAt (donStAnon.getD 0 []) "donor_name" = some "Alice"
    ∧ donationDetailName donStAnon 1 = some "Alice"
    ∧ (donationListOp donStAnon "").2.status = 200
    ∧ strAt (donStAfterList.getD 0 []) "donor_name" = some "Anonymous"
    ∧ strAt (donStAfterList.getD 0 []) "donor_email" = some ""
    ∧ donationDetailName donStAfterList 1 = some "Anonymous" := by
  decide

/-- C5 (counterexample): the claim says any donation payload (donor_name and
purpose present) whose amount does not parse as a number fails with
ValidationError 400.  For a truthy amount of a non-numeric, non-string type —
here the list `[1]` — `float(...)` raises TypeError, which is not caught by
the `except ValueError` clause, so the handler's outer `except` answers 500,
not 400. -/
theorem donation_list_amount_gives_500 :
    (donationCreate [] donPayloadListAmt "t0").2.status = 500
    ∧ ¬ (donationCreate [] donPayloadListAmt "t0").2.status = 400
    ∧ (donationCreate [] donPayloadListAmt "t0").1 = [] := by
  refine ⟨rfl, by decide, rfl⟩

/-- C5 (amended): with donor_name and purpose present and truthy, donation
create behaves by cases on `float(amount)`: a string that fails to parse
gives 400 "Invalid amount format" and leaves the collection unchanged; a
truthy value of unconvertible type (list/dict/None) raises TypeError and
gives 500, collection unchanged; a value parsing to `x <= 0` gives 400,
collection unchanged; otherwise 201, with the parsed float `x` — never the
original string — stored in the new record's amount field. -/
theorem donationCreate_amount_cases (st : List Rec) (pl : Rec) (now : String)
    (hne : pl.isEmpty = false)
    (hreq : firstFalsy ["donor_name", "amount", "purpose"] pl = none) :
    (pyFloatOfVal (getD pl "amount") = .error .valueError →
      donationCreate st pl now = (st, errResp 400 "Invalid amount format"))
    ∧ (pyFloatOfVal (getD pl "amount") = .error .typeError →
      donationCreate st pl now = (st, errResp 500 "Failed to record donation"))
    ∧ (∀ x, pyFloatOfVal (getD pl "amount") = .ok x →
        (PyFloat.le x (.fin 0 1) = true →
          donationCreate st pl now = (st, errResp 400 "Amount must be greater than 0"))
        ∧ (PyFloat.le x (.fin 0 1) = false →
          ∃ r, (donationCreate st pl now).1 = st ++ [r]
            ∧ (donationCreate st pl now).2.status = 201
            ∧ lookupF r "amount" = some (Val.num x))) := by
  refine ⟨?_, ?_, ?_⟩
  · intro h
    simp [donationCreate, hne, hreq, h]
  · intro h
    simp [donationCreate, hne, hreq, h]
  · intro x h
    constructor
    · intro hle
      simp [donationCreate, hne, hreq, h, hle]
    · intro hle
      refine ⟨[("id", Val.num (.fin ((st.length : Int) + 1) 1)),
               ("donor_name", getD pl "donor_name"),
               ("donor_email", getDef pl "donor_email" (.str "")),
               ("amount", Val.num x),
               ("currency", getDef pl "currency" (.str "INR")),
               ("purpose", getD pl "purpose"),
               ("message", getDef pl "message" (.str "")),
               ("anonymous", getDef pl "anonymous" (.bool false)),
               ("payment_method", getDef pl "payment_method" (.str "")),
               ("transaction_id", getDef pl "transaction_id" (.str "")),
               ("status", Val.str "completed"),
               ("created_at", Val.str now)], ?_, ?_, rfl⟩
      · simp [donationCreate, hne, hreq, h, hle]
      · simp [donationCreate, hne, hreq, h, hle]

/-- Witness for `donationCreate_amount_cases`: the spec's own example, the
string "100", parses to the float 100 and is stored as that number. -/
theorem donationCreate_amount_cases_witness :
    ∃ r, (donationCreate []
        [("donor_name", Val.str "A"), ("amount", Val.str "100"),
         ("purpose", Val.str "library")] "t0").1 = [] ++ [r]
      ∧ (donationCreate []
        [("donor_name", Val.str "A"), ("amount", Val.str "100"),
         ("purpose", Val.str "library")] "t0").2.status = 201
      ∧ lookupF r "amount" = some (Val.num (.fin 100 1)) :=
  (((donationCreate_amount_cases []
      [("donor_name", Val.str "A"), ("amount", Val.str "100"),
       ("purpose", Val.str "library")] "t0" rfl rfl).2.2
    (.fin 100 1) rfl).2 rfl)

theorem redactD_amount (d : Rec) :
    lookupF (redactD d) "amount" = lookupF d "amount" := by
  unfold redactD
  rw [lookupF_setF_ne _ _ _ _ (by decide), lookupF_setF_ne _ _ _ _ (by decide)]

theorem amtOk_create (st : List Rec) (pl : Rec) (now : String)
    (h : AmtOk st) : AmtOk ((donationCreate st pl now).1) := by
  by_cases he : pl.isEmpty = true
  · simpa [donationCreate, he] using h
  · cases hff : firstFalsy ["donor_name", "amount", "purpose"] pl with
    | some f => simpa [donationCreate, he, hff] using h
    | none =>
      cases hpf : pyFloatOfVal (getD pl "amount") with
      | error e => cases e <;> simpa [donationCreate, he, hff, hpf] using h
      | ok x =>
        by_cases hle : PyFloat.le x (.fin 0 1) = true
        · simpa [donationCreate, he, hff, hpf, hle] using h
        · have hst : (donationCreate st pl now).1
              = st ++ [[("id", Val.num (.fin ((st.length : Int) + 1) 1)),
                 ("donor_name", getD pl "donor_name"),
                 ("donor_email", getDef pl "donor_email" (.str "")),
                 ("amount", Val.num x),
                 ("currency", getDef pl "currency" (.str "INR")),
                 ("purpose", getD pl "purpose"),
                 ("message", getDef pl "message" (.str "")),
                 ("anonymous", getDef pl "anonymous" (.bool false)),
                 ("payment_method", getDef pl "payment_method" (.str "")),
                 ("transaction_id", getDef pl "transaction_id" (.str "")),
                 ("status", Val.str "completed"),
                 ("created_at", Val.str now)]] := by
            simp [donationCreate, he, hff, hpf, hle]
          rw [hst]
          intro d hd
          rcases List.mem_append.mp hd with hin | hone
          · exact h d hin
          · rw [List.mem_singleton] at hone
            subst hone
            exact ⟨x, rfl, by simpa using hle⟩

theorem amtOk_list (st : List Rec) (purpose : String)
    (h : AmtOk st) : AmtOk ((donationListOp st purpose).1) := by
  intro d hd
  have hd' : d ∈ st.map (fun d =>
      if (purpose == "" || donPass d purpose)
          && truthy (getDef d "anonymous" (.bool false))
        then redactD d else d) := hd
  obtain ⟨d0, h0, heq⟩ := List.mem_map.mp hd'
  obtain ⟨x, hx, hle⟩ := h d0 h0
  subst heq
  by_cases hb : ((purpose == "" || donPass d0 purpose)
      && truthy (getDef d0 "anonymous" (.bool false))) = true
  · rw [if_pos hb]
    exact ⟨x, by rw [redactD_amount]; exact hx, hle⟩
  · rw [if_neg hb]
    exact ⟨x, hx, hle⟩

theorem amtOk_run (ops : List DonOp) :
    ∀ st, AmtOk st → AmtOk (donationRunFrom st ops) := by
  induction ops with
  | nil => exact fun _ h => h
  | cons op t ih =>
    intro st h
    show AmtOk (donationRunFrom (donationStep st op) t)
    cases op with
    | dcreate p tm => exact ih _ (amtOk_create st p tm h)
    | dlist pu => exact ih _ (amtOk_list st pu h)

theorem sumAmounts_ok (l : List Rec) :
    ∀ acc, (∀ d ∈ l, ∃ x, lookupF d "amount" = some (Val.num x)
        ∧ PyFloat.le x (.fin 0 1) = false ∧ x ≠ .nan) →
      NumOk acc → ∃ t, sumAmounts l acc = .ok t ∧ NumOk t := by
  induction l with
  | nil => exact fun acc _ hacc => ⟨acc, rfl, hacc⟩
  | cons d t ih =>
    intro acc h hacc
    obtain ⟨x, hx, hle, hnan⟩ := h d (List.mem_cons_self d t)
    have hrest : ∀ e ∈ t, ∃ x, lookupF e "amount" = some (Val.num x)
        ∧ PyFloat.le x (.fin 0 1) = false ∧ x ≠ .nan :=
      fun e he => h e (List.mem_cons_of_mem _ he)
    have hstep : sumAmounts (d :: t) acc = sumAmounts t (PyFloat.add acc x) := by
      simp [sumAmounts, hx]
    have hnum : NumOk (PyFloat.add acc x) := by
      cases x with
      | fin n dd =>
        have hn : 0 < n := by
          simp [PyFloat.le] at hle
          omega
        cases acc with
        | fin m dm =>
          have hm : (0 : Int) ≤ m := hacc
          show NumOk (.fin (m * (dd : Int) + n * (dm : Int)) (dm * dd))
          show (0 : Int) ≤ m * (dd : Int) + n * (dm : Int)
          have h1 : (0 : Int) ≤ m * (dd : Int) :=
            mul_nonneg hm (Int.natCast_nonneg dd)
          have h2 : (0 : Int) ≤ n * (dm : Int) :=
            mul_nonneg (le_of_lt hn) (Int.natCast_nonneg dm)
          omega
        | inf => trivial
        | nan => exact absurd hacc id
        | ninf => exact absurd hacc id
      | inf =>
        cases acc with
        | fin m dm => trivial
        | inf => trivial
        | nan => exact absurd hacc id
        | ninf => exact absurd hacc id
      | nan => exact absurd rfl hnan
      | ninf => simp [PyFloat.le] at hle
    obtain ⟨tt, hsum, htt⟩ := ih (PyFloat.add acc x) hrest hnum
    exact ⟨tt, by rw [hstep]; exact hsum, htt⟩

theorem numOk_le (t : PyFloat) (h : NumOk t) :
    PyFloat.le (.fin 0 1) t = true := by
  cases t with
  | fin n d =>
    have hn : (0 : Int) ≤ n := h
    simp [PyFloat.le]
    omega
  | inf => rfl
  | nan => exact absurd h id
  | ninf => exact absurd h id

theorem donationList_total (st : List Rec) (purpose : String)
    (hok : AmtOk st) (hnn : NoNanAmt st) :
    (donationListOp st purpose).2.status = 200
    ∧ ∃ x, lookupF (donationListOp st purpose).2.body "total_amount"
        = some (Val.num x) ∧ PyFloat.le (.fin 0 1) x = true := by
  have hf : ∀ d ∈ (st.filter (fun d => purpose == "" || donPass d purpose)).map
      (fun d => if truthy (getDef d "anonymous" (.bool false)) then redactD d else d),
      ∃ x, lookupF d "amount" = some (Val.num x)
        ∧ PyFloat.le x (.fin 0 1) = false ∧ x ≠ .nan := by
    intro d hd
    obtain ⟨d0, hd0, heq⟩ := List.mem_map.mp hd
    have hd0' : d0 ∈ st := List.mem_of_mem_filter hd0
    obtain ⟨x, hx, hle⟩ := hok d0 hd0'
    have hnan := hnn d0 hd0' x hx
    subst heq
    by_cases ha : truthy (getDef d0 "anonymous" (.bool false)) = true
    · rw [if_pos ha]
      exact ⟨x, by rw [redactD_amount]; exact hx, hle, hnan⟩
    · rw [if_neg ha]
      exact ⟨x, hx, hle, hnan⟩
  obtain ⟨t, hsum, ht⟩ := sumAmounts_ok _ (.fin 0 1) hf (by exact le_refl 0)
  constructor
  · show (donationListOp st purpose).2.status = 200
    unfold donationListOp
    simp only [hsum]
  · refine ⟨t, ?_, numOk_le t ht⟩
    show lookupF (donationListOp st purpose).2.body "total_amount"
        = some (Val.num t)
    unfold donationListOp
    simp only [hsum]
    rfl

/-- C10 (counterexample): the claim says every stored donation amount is a
strictly positive number and total_amount is nonnegative; but the string
"nan" is truthy, `float("nan")` succeeds, and `nan <= 0` is False, so the
positivity check passes and a nan amount is stored; nan is not strictly
positive, and the reported total_amount becomes nan, for which `0 <= total`
is also False. -/
theorem donation_nan_amount_breaks_positivity :
    (donationCreate [] donPayloadNan "t0").2.status = 201
    ∧ lookupF (donStNan.getD 0 []) "amount" = some (Val.num .nan)
    ∧ ¬ DonAmountsPos donStNan
    ∧ lookupF (donationListOp donStNan "").2.body "total_amount"
        = some (Val.num .nan)
    ∧ PyFloat.le (.fin 0 1) .nan = false := by
  refine ⟨rfl, rfl, ?_, rfl, rfl⟩
  intro h
  obtain ⟨x, hx, hpos⟩ := h (donStNan.getD 0 [])
    (by rw [show donStNan = [donStNan.getD 0 []] from rfl]
        exact List.mem_singleton_self _)
  rw [show lookupF (donStNan.getD 0 []) "amount"
      = some (Val.num PyFloat.nan) from rfl] at hx
  injection hx with h1
  injection h1 with h2
  rw [← h2] at hpos
  exact absurd hpos (by decide)

/-- C10 (amended): every stored donation amount `x` satisfies the source's
check `not (x <= 0)` — i.e. it is a strictly positive number, +inf, or nan
(nan passes because any nan comparison is False) — initially, after every
create and every list call, and after every sequence of donation operations
(get-by-id does not touch the store); when additionally no stored amount is
nan, the total_amount reported by a 200 donation list is a float `x` with
`0 <= x`. -/
theorem donation_amount_invariant :
    AmtOk []
    ∧ (∀ st pl now, AmtOk st → AmtOk ((donationCreate st pl now).1))
    ∧ (∀ st purpose, AmtOk st → AmtOk ((donationListOp st purpose).1))
    ∧ (∀ ops, AmtOk (donationRunFrom [] ops))
    ∧ (∀ st purpose, AmtOk st → NoNanAmt st →
        (donationListOp st purpose).2.status = 200
        ∧ ∃ x, lookupF (donationListOp st purpose).2.body "total_amount"
            = some (Val.num x) ∧ PyFloat.le (.fin 0 1) x = true) :=
  ⟨fun d hd => absurd hd (List.not_mem_nil d),
   amtOk_create,
   amtOk_list,
   fun ops => amtOk_run ops [] (fun d hd => absurd hd (List.not_mem_nil d)),
   donationList_total⟩

/-- Witness for `donation_amount_invariant`: at a store holding one donation
of amount 100, the list call reports status 200 and a nonnegative
total_amount. -/
theorem donation_amount_invariant_witness :
    (donationListOp [[("amount", Val.num (.fin 100 1))]] "").2.status = 200
    ∧ ∃ x, lookupF (donationListOp [[("amount", Val.num (.fin 100 1))]] "").2.body
        "total_amount" = some (Val.num x) ∧ PyFloat.le (.fin 0 1) x = true :=
  donation_amount_invariant.2.2.2.2 [[("amount", Val.num (.fin 100 1))]] ""
    (fun d hd => by
      rw [List.mem_singleton] at hd
      subst hd
      exact ⟨.fin 100 1, rfl, rfl⟩)
    (fun d hd x hx => by
      rw [List.mem_singleton] at hd
      subst hd
      rw [show lookupF [("amount", Val.num (.fin 100 1))] "amount"
          = some (Val.num (.fin 100 1)) from rfl] at hx
      injection hx with h1
      injection h1 with h2
      rw [← h2]
      simp)

theorem idOf_lookup (r : Rec) (q : Int) (h : idOfRec r = some q) :
    lookupF r "id" = some (Val.num (.fin q 1)) := by
  unfold idOfRec at h
  split at h
  · next heq =>
    injection h with h1
    subst h1
    exact heq
  · exact absurd h (by simp)

theorem findIdxScan_cons_ne (r : Rec) (t : List Rec) (q : Int) (n : Nat)
    (h : idOfRec r = some q) (hne : q ≠ (n : Int)) :
    findIdxScan (r :: t) n = (findIdxScan t n).map (Option.map (· + 1)) := by
  have hl := idOf_lookup r q h
  simp [findIdxScan, hl, valIsId, pyFloatEq, hne]

theorem findIdxScan_cons_eq (r : Rec) (t : List Rec) (q : Int) (n : Nat)
    (h : idOfRec r = some q) (heq : q = (n : Int)) :
    findIdxScan (r :: t) n = .ok (some 0) := by
  have hl := idOf_lookup r q h
  simp [findIdxScan, hl, valIsId, pyFloatEq, heq]

theorem alumniCreate_success (st : List Rec) (pl : Rec) (now : String)
    (st2 : List Rec) (resp : Resp)
    (h : alumniCreate st pl now = (st2, resp)) (hs : resp.status = 201) :
    ∃ r, st2 = st ++ [r] ∧ idOfRec r = some ((st.length : Int) + 1) := by
  unfold alumniCreate at h
  repeat' split at h
  all_goals cases h
  all_goals first
    | exact ⟨_, rfl, rfl⟩
    | simp [errResp] at hs

theorem eventCreate_success (st : List Rec) (pl : Rec) (now : String)
    (st2 : List Rec) (resp : Resp)
    (h : eventCreate st pl now = (st2, resp)) (hs : resp.status = 201) :
    ∃ r, st2 = st ++ [r] ∧ idOfRec r = some ((st.length : Int) + 1) := by
  unfold eventCreate at h
  repeat' split at h
  all_goals cases h
  all_goals first
    | exact ⟨_, rfl, rfl⟩
    | simp [errResp] at hs

theorem jobCreate_success (st : List Rec) (pl : Rec) (now : String)
    (st2 : List Rec) (resp : Resp)
    (h : jobCreate st pl now = (st2, resp)) (hs : resp.status = 201) :
    ∃ r, st2 = st ++ [r] ∧ idOfRec r = some ((st.length : Int) + 1) := by
  unfold jobCreate at h
  repeat' split at h
  all_goals cases h
  all_goals first
    | exact ⟨_, rfl, rfl⟩
    | simp [errResp] at hs

theorem postCreate_success (st : List Rec) (pl : Rec) (now : String)
    (st2 : List Rec) (resp : Resp)
    (h : postCreate st pl now = (st2, resp)) (hs : resp.status = 201) :
    ∃ r, st2 = st ++ [r] ∧ idOfRec r = some ((st.length : Int) + 1) := by
  unfold postCreate at h
  repeat' split at h
  all_goals cases h
  all_goals first
    | exact ⟨_, rfl, rfl⟩
    | simp [errResp] at hs

theorem donationCreate_success (st : List Rec) (pl : Rec) (now : String)
    (st2 : List Rec) (resp : Resp)
    (h : donationCreate st pl now = (st2, resp)) (hs : resp.status = 201) :
    ∃ r, st2 = st ++ [r] ∧ idOfRec r = some ((st.length : Int) + 1) := by
  unfold donationCreate at h
  repeat' split at h
  all_goals cases h
  all_goals first
    | exact ⟨_, rfl, rfl⟩
    | simp [errResp] at hs

theorem messageCreate_success (st : List Rec) (pl : Rec) (now : String)
    (st2 : List Rec) (resp : Resp)
    (h : messageCreate st pl now = (st2, resp)) (hs : resp.status = 201) :
    ∃ r, st2 = st ++ [r] ∧ idOfRec r = some ((st.length : Int) + 1) := by
  unfold messageCreate at h
  repeat' split at h
  all_goals cases h
  all_goals first
    | exact ⟨_, rfl, rfl⟩
    | simp [errResp] at hs

theorem registerCreate_success (st : List Rec) (pl : Rec) (now : String)
    (st2 : List Rec) (resp : Resp)
    (h : register st pl now = (st2, resp)) (hs : resp.status = 201) :
    ∃ r, st2 = st ++ [r] ∧ idOfRec r = some ((st.length : Int) + 1) := by
  unfold register at h
  repeat' split at h
  all_goals cases h
  all_goals first
    | exact ⟨_, rfl, rfl⟩
    | simp [errResp] at hs

theorem alumniDeleteScenario (r1 r2 r3 : Rec)
    (h1 : idOfRec r1 = some 1) (h2 : idOfRec r2 = some 2)
    (h3 : idOfRec r3 = some 3) :
    (alumniDelete [r1, r2, r3] 2).1 = [r1, r3]
    ∧ (alumniDelete [r1, r2, r3] 2).2.status = 200
    ∧ (alumniGet [r1, r3] 1).status = 200
    ∧ (alumniGet [r1, r3] 3).status = 200
    ∧ (alumniGet [r1, r3] 2).status = 404
    ∧ (∀ pl now st2 resp, alumniCreate [r1, r3] pl now = (st2, resp) →
        resp.status = 201 → ∃ r, st2 = [r1, r3] ++ [r] ∧ idOfRec r = some 3) := by
  have hf3 : findIdxScan [r1, r2, r3] 2 = .ok (some 1) := by
    rw [findIdxScan_cons_ne r1 [r2, r3] 1 2 h1 (by decide),
        findIdxScan_cons_eq r2 [r3] 2 2 h2 (by decide)]
    rfl
  have hg1 : findIdxScan [r1, r3] 1 = .ok (some 0) :=
    findIdxScan_cons_eq r1 [r3] 1 1 h1 (by decide)
  have hg3 : findIdxScan [r1, r3] 3 = .ok (some 1) := by
    rw [findIdxScan_cons_ne r1 [r3] 1 3 h1 (by decide),
        findIdxScan_cons_eq r3 [] 3 3 h3 (by decide)]
    rfl
  have hg2 : findIdxScan [r1, r3] 2 = .ok none := by
    rw [findIdxScan_cons_ne r1 [r3] 1 2 h1 (by decide),
        findIdxScan_cons_ne r3 [] 3 2 h3 (by decide)]
    rfl
  refine ⟨?_, ?_, ?_, ?_, ?_, ?_⟩
  · simp [alumniDelete, hf3, List.eraseIdx]
  · simp [alumniDelete, hf3]
  · simp [alumniGet, hg1]
  · simp [alumniGet, hg3]
  · simp [alumniGet, hg2, errResp]
  · intro pl now st2 resp h hs
    obtain ⟨r, hr, hid⟩ := alumniCreate_success _ _ _ _ _ h hs
    exact ⟨r, hr, by simpa using hid⟩

theorem eventDeleteScenario (r1 r2 r3 : Rec)
    (h1 : idOfRec r1 = some 1) (h2 : idOfRec r2 = some 2)
    (h3 : idOfRec r3 = some 3) :
    (eventDelete [r1, r2, r3] 2).1 = [r1, r3]
    ∧ (eventDelete [r1, r2, r3] 2).2.status = 200
    ∧ (eventGet [r1, r3] 1).status = 200
    ∧ (eventGet [r1, r3] 3).status = 200
    ∧ (eventGet [r1, r3] 2).status = 404
    ∧ (∀ pl now st2 resp, eventCreate [r1, r3] pl now = (st2, resp) →
        resp.status = 201 → ∃ r, st2 = [r1, r3] ++ [r] ∧ idOfRec r = some 3) := by
  have hf3 : findIdxScan [r1, r2, r3] 2 = .ok (some 1) := by
    rw [findIdxScan_cons_ne r1 [r2, r3] 1 2 h1 (by decide),
        findIdxScan_cons_eq r2 [r3] 2 2 h2 (by decide)]
    rfl
  have hg1 : findIdxScan [r1, r3] 1 = .ok (some 0) :=
    findIdxScan_cons_eq r1 [r3] 1 1 h1 (by decide)
  have hg3 : findIdxScan [r1, r3] 3 = .ok (some 1) := by
    rw [findIdxScan_cons_ne r1 [r3] 1 3 h1 (by decide),
        findIdxScan_cons_eq r3 [] 3 3 h3 (by decide)]
    rfl
  have hg2 : findIdxScan [r1, r3] 2 = .ok none := by
    rw [findIdxScan_cons_ne r1 [r3] 1 2 h1 (by decide),
        findIdxScan_cons_ne r3 [] 3 2 h3 (by decide)]
    rfl
  refine ⟨?_, ?_, ?_, ?_, ?_, ?_⟩
  · simp [eventDelete, hf3, List.eraseIdx]
  · simp [eventDelete, hf3]
  · simp [eventGet, hg1]
  · simp [eventGet, hg3]
  · simp [eventGet, hg2, errResp]
  · intro pl now st2 resp h hs
    obtain ⟨r, hr, hid⟩ := eventCreate_success _ _ _ _ _ h hs
    exact ⟨r, hr, by simpa using hid⟩

theorem jobDeleteScenario (r1 r2 r3 : Rec)
    (h1 : idOfRec r1 = some 1) (h2 : idOfRec r2 = some 2)
    (h3 : idOfRec r3 = some 3) :
    (jobDelete [r1, r2, r3] 2).1 = [r1, r3]
    ∧ (jobDelete [r1, r2, r3] 2).2.status = 200
    ∧ (jobGet [r1, r3] 1).status = 200
    ∧ (jobGet [r1, r3] 3).status = 200
    ∧ (jobGet [r1, r3] 2).status = 404
    ∧ (∀ pl now st2 resp, jobCreate [r1, r3] pl now = (st2, resp) →
        resp.status = 201 → ∃ r, st2 = [r1, r3] ++ [r] ∧ idOfRec r = some 3) := by
  have hf3 : findIdxScan [r1, r2, r3] 2 = .ok (some 1) := by
    rw [findIdxScan_cons_ne r1 [r2, r3] 1 2 h1 (by decide),
        findIdxScan_cons_eq r2 [r3] 2 2 h2 (by decide)]
    rfl
  have hg1 : findIdxScan [r1, r3] 1 = .ok (some 0) :=
    findIdxScan_cons_eq r1 [r3] 1 1 h1 (by decide)
  have hg3 : findIdxScan [r1, r3] 3 = .ok (some 1) := by
    rw [findIdxScan_cons_ne r1 [r3] 1 3 h1 (by decide),
        findIdxScan_cons_eq r3 [] 3 3 h3 (by decide)]
    rfl
  have hg2 : findIdxScan [r1, r3] 2 = .ok none := by
    rw [findIdxScan_cons_ne r1 [r3] 1 2 h1 (by decide),
        findIdxScan_cons_ne r3 [] 3 2 h3 (by decide)]
    rfl
  refine ⟨?_, ?_, ?_, ?_, ?_, ?_⟩
  · simp [jobDelete, hf3, List.eraseIdx]
  · simp [jobDelete, hf3]
  · simp [jobGet, hg1]
  · simp [jobGet, hg3]
  · simp [jobGet, hg2, errResp]
  · intro pl now st2 resp h hs
    obtain ⟨r, hr, hid⟩ := jobCreate_success _ _ _ _ _ h hs
    exact ⟨r, hr, by simpa using hid⟩

theorem postDeleteScenario (r1 r2 r3 : Rec)
    (h1 : idOfRec r1 = some 1) (h2 : idOfRec r2 = some 2)
    (h3 : idOfRec r3 = some 3) :
    (postDelete [r1, r2, r3] 2).1 = [r1, r3]
    ∧ (postDelete [r1, r2, r3] 2).2.status = 200
    ∧ (postGet [r1, r3] 1).status = 200
    ∧ (postGet [r1, r3] 3).status = 200
    ∧ (postGet [r1, r3] 2).status = 404
    ∧ (∀ pl now st2 resp, postCreate [r1, r3] pl now = (st2, resp) →
        resp.status = 201 → ∃ r, st2 = [r1, r3] ++ [r] ∧ idOfRec r = some 3) := by
  have hf3 : findIdxScan [r1, r2, r3] 2 = .ok (some 1) := by
    rw [findIdxScan_cons_ne r1 [r2, r3] 1 2 h1 (by decide),
        findIdxScan_cons_eq r2 [r3] 2 2 h2 (by decide)]
    rfl
  have hg1 : findIdxScan [r1, r3] 1 = .ok (some 0) :=
    findIdxScan_cons_eq r1 [r3] 1 1 h1 (by decide)
  have hg3 : findIdxScan [r1, r3] 3 = .ok (some 1) := by
    rw [findIdxScan_cons_ne r1 [r3] 1 3 h1 (by decide),
        findIdxScan_cons_eq r3 [] 3 3 h3 (by decide)]
    rfl
  have hg2 : findIdxScan [r1, r3] 2 = .ok none := by
    rw [findIdxScan_cons_ne r1 [r3] 1 2 h1 (by decide),
        findIdxScan_cons_ne r3 [] 3 2 h3 (by decide)]
    rfl
  refine ⟨?_, ?_, ?_, ?_, ?_, ?_⟩
  · simp [postDelete, hf3, List.eraseIdx]
  · simp [postDelete, hf3]
  · simp [postGet, hg1]
  · simp [postGet, hg3]
  · simp [postGet, hg2, errResp]
  · intro pl now st2 resp h hs
    obtain ⟨r, hr, hid⟩ := postCreate_success _ _ _ _ _ h hs
    exact ⟨r, hr, by simpa using hid⟩

/-- C1 (counterexample): in a concrete alumni collection built by three
creates (ids 1, 2, 3), deleting id 2 leaves ids 1 and 3 retrievable and id 2
returning 404, but the next successful create assigns id
`len(collection) + 1 = 3` — not 4 as the claim states — duplicating the
surviving id 3. -/
theorem alumni_delete_then_create_assigns_id_three :
    (alumniDelete alSt3 2).2.status = 200
    ∧ (alumniGet alStDel 1).status = 200
    ∧ (alumniGet alStDel 3).status = 200
    ∧ (alumniGet alStDel 2).status = 404
    ∧ (alumniCreate alStDel (alPayload "D" "d@x.co") "t4").2.status = 201
    ∧ idOfRec ((alumniCreate alStDel (alPayload "D" "d@x.co") "t4").1.getD 2 [])
        = some 3
    ∧ ¬ idOfRec ((alumniCreate alStDel (alPayload "D" "d@x.co") "t4").1.getD 2 [])
        = some 4 := by
  decide

/-- C1 (amended): for each collection with a delete operation (alumni,
events, jobs, posts), starting from a collection of exactly three records
with ids 1, 2, 3: deleting id 2 returns 200 and leaves the first and third
records; get(1) and get(3) then succeed with 200 and get(2) fails with 404;
but the next successful create assigns id = collection size + 1 = 3 (not 4):
the deleted id's slot is renumbered, so the new id collides with the
surviving id 3. -/
theorem delete_id2_then_next_create_id :
    (∀ r1 r2 r3 : Rec, idOfRec r1 = some 1 → idOfRec r2 = some 2 →
      idOfRec r3 = some 3 →
      (alumniDelete [r1, r2, r3] 2).1 = [r1, r3]
      ∧ (alumniDelete [r1, r2, r3] 2).2.status = 200
      ∧ (alumniGet [r1, r3] 1).status = 200
      ∧ (alumniGet [r1, r3] 3).status = 200
      ∧ (alumniGet [r1, r3] 2).status = 404
      ∧ (∀ pl now st2 resp, alumniCreate [r1, r3] pl now = (st2, resp) →
          resp.status = 201 → ∃ r, st2 = [r1, r3] ++ [r] ∧ idOfRec r = some 3))
    ∧ (∀ r1 r2 r3 : Rec, idOfRec r1 = some 1 → idOfRec r2 = some 2 →
      idOfRec r3 = some 3 →
      (eventDelete [r1, r2, r3] 2).1 = [r1, r3]
      ∧ (eventDelete [r1, r2, r3] 2).2.status = 200
      ∧ (eventGet [r1, r3] 1).status = 200
      ∧ (eventGet [r1, r3] 3).status = 200
      ∧ (eventGet [r1, r3] 2).status = 404
      ∧ (∀ pl now st2 resp, eventCreate [r1, r3] pl now = (st2, resp) →
          resp.status = 201 → ∃ r, st2 = [r1, r3] ++ [r] ∧ idOfRec r = some 3))
    ∧ (∀ r1 r2 r3 : Rec, idOfRec r1 = some 1 → idOfRec r2 = some 2 →
      idOfRec r3 = some 3 →
      (jobDelete [r1, r2, r3] 2).1 = [r1, r3]
      ∧ (jobDelete [r1, r2, r3] 2).2.status = 200
      ∧ (jobGet [r1, r3] 1).status = 200
      ∧ (jobGet [r1, r3] 3).status = 200
      ∧ (jobGet [r1, r3] 2).status = 404
      ∧ (∀ pl now st2 resp, jobCreate [r1, r3] pl now = (st2, resp) →
          resp.status = 201 → ∃ r, st2 = [r1, r3] ++ [r] ∧ idOfRec r = some 3))
    ∧ (∀ r1 r2 r3 : Rec, idOfRec r1 = some 1 → idOfRec r2 = some 2 →
      idOfRec r3 = some 3 →
      (postDelete [r1, r2, r3] 2).1 = [r1, r3]
      ∧ (postDelete [r1, r2, r3] 2).2.status = 200
      ∧ (postGet [r1, r3] 1).status = 200
      ∧ (postGet [r1, r3] 3).status = 200
      ∧ (postGet [r1, r3] 2).status = 404
      ∧ (∀ pl now st2 resp, postCreate [r1, r3] pl now = (st2, resp) →
          resp.status = 201 → ∃ r, st2 = [r1, r3] ++ [r] ∧ idOfRec r = some 3)) :=
  ⟨alumniDeleteScenario, eventDeleteScenario, jobDeleteScenario,
   postDeleteScenario⟩

/-- Witness for `delete_id2_then_next_create_id`, at three one-field records. -/
theorem delete_id2_then_next_create_id_witness :
    (alumniDelete [[("id", Val.num (.fin 1 1))], [("id", Val.num (.fin 2 1))],
        [("id", Val.num (.fin 3 1))]] 2).1
      = [[("id", Val.num (.fin 1 1))], [("id", Val.num (.fin 3 1))]]
    ∧ (alumniDelete [[("id", Val.num (.fin 1 1))], [("id", Val.num (.fin 2 1))],
        [("id", Val.num (.fin 3 1))]] 2).2.status = 200
    ∧ (alumniGet [[("id", Val.num (.fin 1 1))], [("id", Val.num (.fin 3 1))]]
        1).status = 200
    ∧ (alumniGet [[("id", Val.num (.fin 1 1))], [("id", Val.num (.fin 3 1))]]
        3).status = 200
    ∧ (alumniGet [[("id", Val.num (.fin 1 1))], [("id", Val.num (.fin 3 1))]]
        2).status = 404
    ∧ (∀ pl now st2 resp,
        alumniCreate [[("id", Val.num (.fin 1 1))], [("id", Val.num (.fin 3 1))]]
            pl now = (st2, resp) →
        resp.status = 201 →
        ∃ r, st2 = [[("id", Val.num (.fin 1 1))], [("id", Val.num (.fin 3 1))]]
            ++ [r] ∧ idOfRec r = some 3) :=
  delete_id2_then_next_create_id.1
    [("id", Val.num (.fin 1 1))] [("id", Val.num (.fin 2 1))]
    [("id", Val.num (.fin 3 1))] rfl rfl rfl

theorem getD_append_left {α : Type} (l l' : List α) (j : Nat) (d : α)
    (h : j < l.length) : (l ++ l').getD j d = l.getD j d := by
  induction l generalizing j with
  | nil => simp at h
  | cons a t ih =>
    cases j with
    | zero => rfl
    | succ j =>
      simp only [List.length_cons] at h
      exact ih j (by omega)

theorem getD_append_len {α : Type} (l : List α) (r d : α) :
    (l ++ [r]).getD l.length d = r := by
  induction l with
  | nil => rfl
  | cons a t ih => exact ih

theorem getD_set_self {α : Type} (l : List α) (i : Nat) (a d : α)
    (h : i < l.length) : (l.set i a).getD i d = a := by
  induction l generalizing i with
  | nil => simp at h
  | cons b t ih =>
    cases i with
    | zero => rfl
    | succ i =>
      simp only [List.length_cons] at h
      exact ih i (by omega)

theorem getD_set_ne {α : Type} (l : List α) (i j : Nat) (a d : α)
    (h : j ≠ i) : (l.set i a).getD j d = l.getD j d := by
  induction l generalizing i j with
  | nil => simp [List.set]
  | cons b t ih =>
    cases i with
    | zero =>
      cases j with
      | zero => exact absurd rfl h
      | succ j => rfl
    | succ i =>
      cases j with
      | zero => rfl
      | succ j => exact ih i j (by omega)

theorem getD_map_lt (l : List Rec) (f : Rec → Rec) (i : Nat)
    (h : i < l.length) : (l.map f).getD i [] = f (l.getD i []) := by
  induction l generalizing i with
  | nil => simp at h
  | cons a t ih =>
    cases i with
    | zero => rfl
    | succ i =>
      simp only [List.length_cons] at h
      exact ih i (by omega)

theorem findIdxScan_lt (st : List Rec) (n : Nat) (i : Nat)
    (h : findIdxScan st n = .ok (some i)) : i < st.length := by
  induction st generalizing i with
  | nil => simp [findIdxScan] at h
  | cons r t ih =>
    unfold findIdxScan at h
    split at h
    · cases h
    · next v _ =>
      split at h
      · injection h with h1
        injection h1 with h2
        subst h2
        simp
      · cases hx : findIdxScan t n with
        | error e => rw [hx] at h; cases h
        | ok o =>
          rw [hx] at h
          cases o with
          | none => cases h  -- .ok none ≠ .ok (some i) after map
          | some j =>
            have hj := ih j hx
            have hij : i = j + 1 := by
              simp [Except.map] at h
              omega
            subst hij
            simp only [List.length_cons]
            omega

theorem idOf_redactD (d : Rec) : idOfRec (redactD d) = idOfRec d := by
  unfold idOfRec redactD
  rw [lookupF_setF_ne _ _ _ _ (by decide), lookupF_setF_ne _ _ _ _ (by decide)]

theorem goodStep_seqIds (s s' : List Rec) (hg : GoodStep s s')
    (h : SeqIds s) : SeqIds s' := by
  rcases hg with rfl | ⟨r, rfl, hid⟩ | ⟨i, hi, r, rfl, hid⟩
  · exact h
  · intro j hj
    simp only [List.length_append, List.length_singleton] at hj
    by_cases hjs : j < s.length
    · rw [getD_append_left _ _ _ _ hjs]
      exact h j hjs
    · have hje : j = s.length := by omega
      subst hje
      rw [getD_append_len]
      exact hid
  · intro j hj
    rw [List.length_set] at hj
    by_cases hij : j = i
    · subst hij
      rw [getD_set_self _ _ _ _ hj, hid]
      exact h j hj
    · rw [getD_set_ne _ _ _ _ _ hij]
      exact h j hj

theorem goodStep_id_stable (s s' : List Rec) (hg : GoodStep s s')
    (i : Nat) (hi : i < s.length) :
    i < s'.length ∧ idOfRec (s'.getD i []) = idOfRec (s.getD i []) := by
  rcases hg with rfl | ⟨r, rfl, _⟩ | ⟨j, hj, r, rfl, hid⟩
  · exact ⟨hi, rfl⟩
  · refine ⟨by simp only [List.length_append, List.length_singleton]; omega, ?_⟩
    rw [getD_append_left _ _ _ _ hi]
  · refine ⟨by rw [List.length_set]; exact hi, ?_⟩
    by_cases hij : i = j
    · subst hij
      rw [getD_set_self _ _ _ _ hi, hid]
    · rw [getD_set_ne _ _ _ _ _ hij]

theorem applyUpdate_id_pres (st : List Rec) (i : Nat) (pl : Rec)
    (now : String) (skip : List String) (hskip : "id" ∈ skip) :
    idOfRec (applyUpdateAt st i pl now skip).2 = idOfRec (st.getD i []) := by
  unfold applyUpdateAt idOfRec
  rw [lookupF_setF_ne _ _ _ _ (by decide), updateFields_skip _ _ _ _ hskip]

theorem alumniCreate_goodStep (st : List Rec) (pl : Rec) (now : String) :
    GoodStep st ((alumniCreate st pl now).1) := by
  unfold alumniCreate
  repeat' split
  all_goals first
    | exact Or.inl rfl
    | exact Or.inr (Or.inl ⟨_, rfl, rfl⟩)

theorem eventCreate_goodStep (st : List Rec) (pl : Rec) (now : String) :
    GoodStep st ((eventCreate st pl now).1) := by
  unfold eventCreate
  repeat' split
  all_goals first
    | exact Or.inl rfl
    | exact Or.inr (Or.inl ⟨_, rfl, rfl⟩)

theorem jobCreate_goodStep (st : List Rec) (pl : Rec) (now : String) :
    GoodStep st ((jobCreate st pl now).1) := by
  unfold jobCreate
  repeat' split
  all_goals first
    | exact Or.inl rfl
    | exact Or.inr (Or.inl ⟨_, rfl, rfl⟩)

theorem postCreate_goodStep (st : List Rec) (pl : Rec) (now : String) :
    GoodStep st ((postCreate st pl now).1) := by
  unfold postCreate
  repeat' split
  all_goals first
    | exact Or.inl rfl
    | exact Or.inr (Or.inl ⟨_, rfl, rfl⟩)

theorem messageCreate_goodStep (st : List Rec) (pl : Rec) (now : String) :
    GoodStep st ((messageCreate st pl now).1) := by
  unfold messageCreate
  repeat' split
  all_goals first
    | exact Or.inl rfl
    | exact Or.inr (Or.inl ⟨_, rfl, rfl⟩)

theorem register_goodStep (st : List Rec) (pl : Rec) (now : String) :
    GoodStep st ((register st pl now).1) := by
  unfold register
  repeat' split
  all_goals first
    | exact Or.inl rfl
    | exact Or.inr (Or.inl ⟨_, rfl, rfl⟩)

theorem donationCreate_goodStep (st : List Rec) (pl : Rec) (now : String) :
    GoodStep st ((donationCreate st pl now).1) := by
  unfold donationCreate
  repeat' split
  all_goals first
    | exact Or.inl rfl
    | exact Or.inr (Or.inl ⟨_, rfl, rfl⟩)

theorem alumniUpdate_goodStep (st : List Rec) (n : Nat) (pl : Rec)
    (now : String) : GoodStep st ((alumniUpdate st n pl now).1) := by
  unfold alumniUpdate
  cases hf : findIdxScan st n with
  | error e => simp only [hf]; exact Or.inl rfl
  | ok o =>
    cases o with
    | none => simp only [hf]; exact Or.inl rfl
    | some i =>
      simp only [hf]
      have hi := findIdxScan_lt st n i hf
      repeat' split
      all_goals first
        | exact Or.inl rfl
        | exact Or.inr (Or.inr ⟨i, hi, _, rfl,
            applyUpdate_id_pres st i pl now ["id"] (by decide)⟩)

theorem eventUpdate_goodStep (st : List Rec) (n : Nat) (pl : Rec)
    (now : String) : GoodStep st ((eventUpdate st n pl now).1) := by
  unfold eventUpdate
  cases hf : findIdxScan st n with
  | error e => simp only [hf]; exact Or.inl rfl
  | ok o =>
    cases o with
    | none => simp only [hf]; exact Or.inl rfl
    | some i =>
      simp only [hf]
      have hi := findIdxScan_lt st n i hf
      repeat' split
      all_goals first
        | exact Or.inl rfl
        | exact Or.inr (Or.inr ⟨i, hi, _, rfl,
            applyUpdate_id_pres st i pl now ["id"] (by decide)⟩)

theorem jobUpdate_goodStep (st : List Rec) (n : Nat) (pl : Rec)
    (now : String) : GoodStep st ((jobUpdate st n pl now).1) := by
  unfold jobUpdate
  cases hf : findIdxScan st n with
  | error e => simp only [hf]; exact Or.inl rfl
  | ok o =>
    cases o with
    | none => simp only [hf]; exact Or.inl rfl
    | some i =>
      simp only [hf]
      have hi := findIdxScan_lt st n i hf
      repeat' split
      all_goals first
        | exact Or.inl rfl
        | exact Or.inr (Or.inr ⟨i, hi, _, rfl,
            applyUpdate_id_pres st i pl now ["id"] (by decide)⟩)

theorem postUpdate_goodStep (st : List Rec) (n : Nat) (pl : Rec)
    (now : String) : GoodStep st ((postUpdate st n pl now).1) := by
  unfold postUpdate
  cases hf : findIdxScan st n with
  | error e => simp only [hf]; exact Or.inl rfl
  | ok o =>
    cases o with
    | none => simp only [hf]; exact Or.inl rfl
    | some i =>
      simp only [hf]
      have hi := findIdxScan_lt st n i hf
      repeat' split
      all_goals first
        | exact Or.inl rfl
        | exact Or.inr (Or.inr ⟨i, hi, _, rfl,
            applyUpdate_id_pres st i pl now ["id", "created_at"] (by decide)⟩)

theorem alumniDelete_shape (st : List Rec) (n : Nat) :
    (alumniDelete st n).1 = st ∨ ∃ i, (alumniDelete st n).1 = st.eraseIdx i := by
  unfold alumniDelete
  repeat' split
  all_goals first
    | exact Or.inl rfl
    | exact Or.inr ⟨_, rfl⟩

theorem eventDelete_shape (st : List Rec) (n : Nat) :
    (eventDelete st n).1 = st ∨ ∃ i, (eventDelete st n).1 = st.eraseIdx i := by
  unfold eventDelete
  repeat' split
  all_goals first
    | exact Or.inl rfl
    | exact Or.inr ⟨_, rfl⟩

theorem jobDelete_shape (st : List Rec) (n : Nat) :
    (jobDelete st n).1 = st ∨ ∃ i, (jobDelete st n).1 = st.eraseIdx i := by
  unfold jobDelete
  repeat' split
  all_goals first
    | exact Or.inl rfl
    | exact Or.inr ⟨_, rfl⟩

theorem postDelete_shape (st : List Rec) (n : Nat) :
    (postDelete st n).1 = st ∨ ∃ i, (postDelete st n).1 = st.eraseIdx i := by
  unfold postDelete
  repeat' split
  all_goals first
    | exact Or.inl rfl
    | exact Or.inr ⟨_, rfl⟩

theorem donationList_seqIds (st : List Rec) (purpose : String)
    (h : SeqIds st) : SeqIds ((donationListOp st purpose).1) := by
  have hfst : (donationListOp st purpose).1 = st.map (fun d =>
      if (purpose == "" || donPass d purpose)
          && truthy (getDef d "anonymous" (.bool false))
        then redactD d else d) := rfl
  rw [hfst]
  intro i hi
  rw [List.length_map] at hi
  rw [getD_map_lt _ _ _ hi]
  have key : idOfRec (if (purpose == "" || donPass (st.getD i []) purpose)
      && truthy (getDef (st.getD i []) "anonymous" (.bool false))
      then redactD (st.getD i []) else st.getD i []) = idOfRec (st.getD i []) := by
    split
    · exact idOf_redactD _
    · rfl
  rw [key]
  exact h i hi

theorem seqIds_nil : SeqIds [] := by
  intro i hi
  simp at hi

theorem seqIds_foldl {σ : Type} (step : List Rec → σ → List Rec)
    (hstep : ∀ st op, GoodStep st (step st op)) :
    ∀ (ops : List σ) (st : List Rec), SeqIds st → SeqIds (ops.foldl step st) := by
  intro ops
  induction ops with
  | nil => exact fun _ h => h
  | cons op t ih =>
    exact fun st h => ih (step st op) (goodStep_seqIds _ _ (hstep st op) h)

theorem alumniStep_good (st : List Rec) (op : MOp) :
    GoodStep st (alumniStep st op) := by
  cases op with
  | mcreate p t => exact alumniCreate_goodStep st p t
  | mupdate n p t => exact alumniUpdate_goodStep st n p t

theorem eventStep_good (st : List Rec) (op : MOp) :
    GoodStep st (eventStep st op) := by
  cases op with
  | mcreate p t => exact eventCreate_goodStep st p t
  | mupdate n p t => exact eventUpdate_goodStep st n p t

theorem jobStep_good (st : List Rec) (op : MOp) :
    GoodStep st (jobStep st op) := by
  cases op with
  | mcreate p t => exact jobCreate_goodStep st p t
  | mupdate n p t => exact jobUpdate_goodStep st n p t

theorem postStep_good (st : List Rec) (op : MOp) :
    GoodStep st (postStep st op) := by
  cases op with
  | mcreate p t => exact postCreate_goodStep st p t
  | mupdate n p t => exact postUpdate_goodStep st n p t

theorem donationRun_seqIds (ops : List DonOp) :
    ∀ st, SeqIds st → SeqIds (donationRunFrom st ops) := by
  induction ops with
  | nil => exact fun _ h => h
  | cons op t ih =>
    intro st h
    show SeqIds (donationRunFrom (donationStep st op) t)
    cases op with
    | dcreate p tm => exact ih _ (goodStep_seqIds _ _ (donationCreate_goodStep st p tm) h)
    | dlist pu => exact ih _ (donationList_seqIds st pu h)

theorem getD_eq_getElem {α : Type} (l : List α) (i : Nat) (d : α)
    (h : i < l.length) : l.getD i d = l[i] := by
  induction l generalizing i with
  | nil => simp at h
  | cons a t ih =>
    cases i with
    | zero => rfl
    | succ i =>
      simp only [List.length_cons] at h
      exact ih i (by omega)

theorem seqIds_nodup (st : List Rec) (h : SeqIds st) : (recIds st).Nodup := by
  have heq : recIds st = (List.range st.length).map
      (fun i : Nat => (some ((i : Int) + 1) : Option Int)) := by
    apply List.ext_getElem
    · show (st.map idOfRec).length = _
      rw [List.length_map, List.length_map, List.length_range]
    · intro i h1 h2
      have hlt : i < st.length := by
        have h1' := h1
        rw [show recIds st = st.map idOfRec from rfl, List.length_map] at h1'
        exact h1'
      show (st.map idOfRec)[i] = _
      rw [List.getElem_map, List.getElem_map, List.getElem_range,
        ← getD_eq_getElem st i [] hlt]
      exact h i hlt
  rw [heq]
  refine List.Nodup.map ?_ (List.nodup_range _)
  intro a b hab
  simp only [Option.some.injEq] at hab
  omega

theorem recIds_eraseIdx (st : List Rec) (i : Nat) :
    recIds (st.eraseIdx i) = (recIds st).eraseIdx i := by
  induction st generalizing i with
  | nil => rfl
  | cons a t ih =>
    cases i with
    | zero => rfl
    | succ i =>
      simp only [recIds, List.eraseIdx, List.map_cons]
      exact congrArg _ (ih i)

theorem recIds_eraseIdx_nodup (st : List Rec) (i : Nat)
    (h : (recIds st).Nodup) : (recIds (st.eraseIdx i)).Nodup := by
  rw [recIds_eraseIdx]
  exact h.sublist (List.eraseIdx_sublist _ _)

/-- C2 (counterexample): from the empty alumni collection, three creates
(ids 1, 2, 3), one delete of id 2, and one further create produce the id
list [1, 3, 3]: the create after the delete assigns size + 1 = 3, which
duplicates the surviving id 3, so id uniqueness is NOT preserved by every
sequence of create, update, and delete operations. -/
theorem create_after_delete_duplicates_id :
    recIds alStBad = [some 1, some 3, some 3]
    ∧ ¬ (recIds alStBad).Nodup := by
  exact ⟨rfl, by decide⟩

/-- C2 (amended): starting from the empty collection, every sequence of
create and update operations keeps each record's id equal to its position
plus one — in particular ids are pairwise distinct — for all seven
collections (donation sequences may also include list calls, whose
shallow-copy redaction never touches ids); every single create or update
leaves every pre-existing record's id unchanged; a delete either rejects or
removes exactly one record, which preserves id distinctness.  The claim as
stated fails only for a create occurring after a delete, which can duplicate
a surviving id (see the counterexample). -/
theorem id_unique_and_stable :
    (∀ ops, SeqIds (alumniRunOps ops) ∧ (recIds (alumniRunOps ops)).Nodup)
    ∧ (∀ ops, SeqIds (eventRunOps ops) ∧ (recIds (eventRunOps ops)).Nodup)
    ∧ (∀ ops, SeqIds (jobRunOps ops) ∧ (recIds (jobRunOps ops)).Nodup)
    ∧ (∀ ops, SeqIds (postRunOps ops) ∧ (recIds (postRunOps ops)).Nodup)
    ∧ (∀ ops, SeqIds (registerRunOps ops) ∧ (recIds (registerRunOps ops)).Nodup)
    ∧ (∀ ops, SeqIds (messageRunOps ops) ∧ (recIds (messageRunOps ops)).Nodup)
    ∧ (∀ ops, SeqIds (donationRunFrom [] ops)
        ∧ (recIds (donationRunFrom [] ops)).Nodup)
    ∧ (∀ st op i, i < st.length → i < (alumniStep st op).length
        ∧ idOfRec ((alumniStep st op).getD i []) = idOfRec (st.getD i []))
    ∧ (∀ st op i, i < st.length → i < (eventStep st op).length
        ∧ idOfRec ((eventStep st op).getD i []) = idOfRec (st.getD i []))
    ∧ (∀ st op i, i < st.length → i < (jobStep st op).length
        ∧ idOfRec ((jobStep st op).getD i []) = idOfRec (st.getD i []))
    ∧ (∀ st op i, i < st.length → i < (postStep st op).length
        ∧ idOfRec ((postStep st op).getD i []) = idOfRec (st.getD i []))
    ∧ (∀ st n, (alumniDelete st n).1 = st
        ∨ ∃ i, (alumniDelete st n).1 = st.eraseIdx i)
    ∧ (∀ st n, (eventDelete st n).1 = st
        ∨ ∃ i, (eventDelete st n).1 = st.eraseIdx i)
    ∧ (∀ st n, (jobDelete st n).1 = st
        ∨ ∃ i, (jobDelete st n).1 = st.eraseIdx i)
    ∧ (∀ st n, (postDelete st n).1 = st
        ∨ ∃ i, (postDelete st n).1 = st.eraseIdx i)
    ∧ (∀ st i, (recIds st).Nodup → (recIds (st.eraseIdx i)).Nodup) := by
  refine ⟨?_, ?_, ?_, ?_, ?_, ?_, ?_, ?_, ?_, ?_, ?_,
    alumniDelete_shape, eventDelete_shape, jobDelete_shape, postDelete_shape,
    recIds_eraseIdx_nodup⟩
  · intro ops
    have h := seqIds_foldl alumniStep alumniStep_good ops [] seqIds_nil
    exact ⟨h, seqIds_nodup _ h⟩
  · intro ops
    have h := seqIds_foldl eventStep eventStep_good ops [] seqIds_nil
    exact ⟨h, seqIds_nodup _ h⟩
  · intro ops
    have h := seqIds_foldl jobStep jobStep_good ops [] seqIds_nil
    exact ⟨h, seqIds_nodup _ h⟩
  · intro ops
    have h := seqIds_foldl postStep postStep_good ops [] seqIds_nil
    exact ⟨h, seqIds_nodup _ h⟩
  · intro ops
    have h := seqIds_foldl (fun st pr => (register st pr.1 pr.2).1)
      (fun st pr => register_goodStep st pr.1 pr.2) ops [] seqIds_nil
    exact ⟨h, seqIds_nodup _ h⟩
  · intro ops
    have h := seqIds_foldl (fun st pr => (messageCreate st pr.1 pr.2).1)
      (fun st pr => messageCreate_goodStep st pr.1 pr.2) ops [] seqIds_nil
    exact ⟨h, seqIds_nodup _ h⟩
  · intro ops
    have h := donationRun_seqIds ops [] seqIds_nil
    exact ⟨h, seqIds_nodup _ h⟩
  · exact fun st op i hi => goodStep_id_stable _ _ (alumniStep_good st op) i hi
  · exact fun st op i hi => goodStep_id_stable _ _ (eventStep_good st op) i hi
  · exact fun st op i hi => goodStep_id_stable _ _ (jobStep_good st op) i hi
  · exact fun st op i hi => goodStep_id_stable _ _ (postStep_good st op) i hi

/-- Witness for `id_unique_and_stable`: a concrete create-update-create
alumni sequence yields ids [1, 2], distinct; and the create step at the
concrete three-record store leaves id 3 at position 2 unchanged. -/
theorem id_unique_and_stable_witness :
    (SeqIds (alumniRunOps [MOp.mcreate (alPayload "A" "a@x.co") "t1",
        MOp.mupdate 1 [("batch", Val.str "2021")] "t2",
        MOp.mcreate (alPayload "B" "b@x.co") "t3"])
      ∧ (recIds (alumniRunOps [MOp.mcreate (alPayload "A" "a@x.co") "t1",
          MOp.mupdate 1 [("batch", Val.str "2021")] "t2",
          MOp.mcreate (alPayload "B" "b@x.co") "t3"])).Nodup)
    ∧ (2 < (alumniStep alSt3 (MOp.mcreate (alPayload "D" "d@x.co") "t4")).length
      ∧ idOfRec ((alumniStep alSt3
            (MOp.mcreate (alPayload "D" "d@x.co") "t4")).getD 2 [])
          = idOfRec (alSt3.getD 2 [])) :=
  ⟨id_unique_and_stable.1 _,
   id_unique_and_stable.2.2.2.2.2.2.2.1 alSt3
     (MOp.mcreate (alPayload "D" "d@x.co") "t4") 2 (by decide)⟩

theorem applyUpdateAt_fields (st : List Rec) (i : Nat) (pl : Rec)
    (now : String) (skip : List String) (hnd : (keysOf pl).Nodup) :
    (∀ k v, (k, v) ∈ pl → k ∉ skip → k ≠ "updated_at" →
        lookupF (applyUpdateAt st i pl now skip).2 k = some v)
    ∧ (∀ k, k ∈ skip → k ≠ "updated_at" →
        lookupF (applyUpdateAt st i pl now skip).2 k = lookupF (st.getD i []) k)
    ∧ (∀ k, k ∉ keysOf pl → k ≠ "updated_at" →
        lookupF (applyUpdateAt st i pl now skip).2 k = lookupF (st.getD i []) k)
    ∧ lookupF (applyUpdateAt st i pl now skip).2 "updated_at" = some (Val.str now)
    ∧ (applyUpdateAt st i pl now skip).1
        = st.set i (applyUpdateAt st i pl now skip).2 := by
  refine ⟨?_, ?_, ?_, lookupF_setF_self _ _ _, rfl⟩
  · intro k v hm hks hku
    show lookupF (setF (updateFields (st.getD i []) pl skip)
        "updated_at" (Val.str now)) k = some v
    rw [lookupF_setF_ne _ _ _ _ hku, updateFields_mem _ _ _ _ _ hm hnd hks]
  · intro k hks hku
    show lookupF (setF (updateFields (st.getD i []) pl skip)
        "updated_at" (Val.str now)) k = lookupF (st.getD i []) k
    rw [lookupF_setF_ne _ _ _ _ hku, updateFields_skip _ _ _ _ hks]
  · intro k hkp hku
    show lookupF (setF (updateFields (st.getD i []) pl skip)
        "updated_at" (Val.str now)) k = lookupF (st.getD i []) k
    rw [lookupF_setF_ne _ _ _ _ hku, updateFields_absent _ _ _ _ hkp]

theorem alumniUpdate_success (st : List Rec) (n : Nat) (pl : Rec)
    (now : String) (st2 : List Rec) (resp : Resp)
    (h : alumniUpdate st n pl now = (st2, resp)) (hs : resp.status = 200) :
    ∃ i, i < st.length ∧ st2 = (applyUpdateAt st i pl now ["id"]).1 := by
  unfold alumniUpdate at h
  cases hf : findIdxScan st n with
  | error e =>
    simp only [hf] at h
    cases h
    simp [errResp] at hs
  | ok o =>
    cases o with
    | none =>
      simp only [hf] at h
      cases h
      simp [errResp] at hs
    | some i =>
      simp only [hf] at h
      have hi := findIdxScan_lt st n i hf
      repeat' split at h
      all_goals cases h
      all_goals first
        | exact ⟨i, hi, rfl⟩
        | simp [errResp] at hs

theorem eventUpdate_success (st : List Rec) (n : Nat) (pl : Rec)
    (now : String) (st2 : List Rec) (resp : Resp)
    (h : eventUpdate st n pl now = (st2, resp)) (hs : resp.status = 200) :
    ∃ i, i < st.length ∧ st2 = (applyUpdateAt st i pl now ["id"]).1 := by
  unfold eventUpdate at h
  cases hf : findIdxScan st n with
  | error e =>
    simp only [hf] at h
    cases h
    simp [errResp] at hs
  | ok o =>
    cases o with
    | none =>
      simp only [hf] at h
      cases h
      simp [errResp] at hs
    | some i =>
      simp only [hf] at h
      have hi := findIdxScan_lt st n i hf
      repeat' split at h
      all_goals cases h
      all_goals first
        | exact ⟨i, hi, rfl⟩
        | simp [errResp] at hs

theorem jobUpdate_success (st : List Rec) (n : Nat) (pl : Rec)
    (now : String) (st2 : List Rec) (resp : Resp)
    (h : jobUpdate st n pl now = (st2, resp)) (hs : resp.status = 200) :
    ∃ i, i < st.length ∧ st2 = (applyUpdateAt st i pl now ["id"]).1 := by
  unfold jobUpdate at h
  cases hf : findIdxScan st n with
  | error e =>
    simp only [hf] at h
    cases h
    simp [errResp] at hs
  | ok o =>
    cases o with
    | none =>
      simp only [hf] at h
      cases h
      simp [errResp] at hs
    | some i =>
      simp only [hf] at h
      have hi := findIdxScan_lt st n i hf
      repeat' split at h
      all_goals cases h
      all_goals first
        | exact ⟨i, hi, rfl⟩
        | simp [errResp] at hs

theorem postUpdate_success (st : List Rec) (n : Nat) (pl : Rec)
    (now : String) (st2 : List Rec) (resp : Resp)
    (h : postUpdate st n pl now = (st2, resp)) (hs : resp.status = 200) :
    ∃ i, i < st.length
      ∧ st2 = (applyUpdateAt st i pl now ["id", "created_at"]).1 := by
  unfold postUpdate at h
  cases hf : findIdxScan st n with
  | error e =>
    simp only [hf] at h
    cases h
    simp [errResp] at hs
  | ok o =>
    cases o with
    | none =>
      simp only [hf] at h
      cases h
      simp [errResp] at hs
    | some i =>
      simp only [hf] at h
      have hi := findIdxScan_lt st n i hf
      repeat' split at h
      all_goals cases h
      all_goals first
        | exact ⟨i, hi, rfl⟩
        | simp [errResp] at hs

/-- C6 (confirmed): after a successful update (status 200) with a payload
whose keys are distinct (a Python dict), the store replaces the found record
by a record `r` in place, and: every payload field other than id and
updated_at (and created_at for Post) holds the supplied value; the id is
unchanged; for Post the created_at is also unchanged; every stored field not
named in the payload, other than updated_at, is unchanged; and updated_at is
set to the operation's timestamp (even if the payload named it — the stamp
runs after the loop). -/
theorem update_overwrites_named_fields :
    (∀ st n pl now st2 resp, alumniUpdate st n pl now = (st2, resp) →
      resp.status = 200 → (keysOf pl).Nodup →
      ∃ i r, i < st.length ∧ st2 = st.set i r
        ∧ (∀ k v, (k, v) ∈ pl → k ≠ "id" → k ≠ "updated_at" →
            lookupF r k = some v)
        ∧ lookupF r "id" = lookupF (st.getD i []) "id"
        ∧ (∀ k, k ∉ keysOf pl → k ≠ "updated_at" →
            lookupF r k = lookupF (st.getD i []) k)
        ∧ lookupF r "updated_at" = some (Val.str now))
    ∧ (∀ st n pl now st2 resp, eventUpdate st n pl now = (st2, resp) →
      resp.status = 200 → (keysOf pl).Nodup →
      ∃ i r, i < st.length ∧ st2 = st.set i r
        ∧ (∀ k v, (k, v) ∈ pl → k ≠ "id" → k ≠ "updated_at" →
            lookupF r k = some v)
        ∧ lookupF r "id" = lookupF (st.getD i []) "id"
        ∧ (∀ k, k ∉ keysOf pl → k ≠ "updated_at" →
            lookupF r k = lookupF (st.getD i []) k)
        ∧ lookupF r "updated_at" = some (Val.str now))
    ∧ (∀ st n pl now st2 resp, jobUpdate st n pl now = (st2, resp) →
      resp.status = 200 → (keysOf pl).Nodup →
      ∃ i r, i < st.length ∧ st2 = st.set i r
        ∧ (∀ k v, (k, v) ∈ pl → k ≠ "id" → k ≠ "updated_at" →
            lookupF r k = some v)
        ∧ lookupF r "id" = lookupF (st.getD i []) "id"
        ∧ (∀ k, k ∉ keysOf pl → k ≠ "updated_at" →
            lookupF r k = lookupF (st.getD i []) k)
        ∧ lookupF r "updated_at" = some (Val.str now))
    ∧ (∀ st n pl now st2 resp, postUpdate st n pl now = (st2, resp) →
      resp.status = 200 → (keysOf pl).Nodup →
      ∃ i r, i < st.length ∧ st2 = st.set i r
        ∧ (∀ k v, (k, v) ∈ pl → k ≠ "id" → k ≠ "created_at" →
            k ≠ "updated_at" → lookupF r k = some v)
        ∧ lookupF r "id" = lookupF (st.getD i []) "id"
        ∧ lookupF r "created_at" = lookupF (st.getD i []) "created_at"
        ∧ (∀ k, k ∉ keysOf pl → k ≠ "updated_at" →
            lookupF r k = lookupF (st.getD i []) k)
        ∧ lookupF r "updated_at" = some (Val.str now)) := by
  refine ⟨?_, ?_, ?_, ?_⟩
  · intro st n pl now st2 resp h hs hnd
    obtain ⟨i, hi, hst⟩ := alumniUpdate_success st n pl now st2 resp h hs
    obtain ⟨hmem, hskip, habs, hupd, hfst⟩ :=
      applyUpdateAt_fields st i pl now ["id"] hnd
    refine ⟨i, (applyUpdateAt st i pl now ["id"]).2, hi,
      hst.trans hfst, ?_, hskip "id" (by simp) (by decide), habs, hupd⟩
    intro k v hm hki hku
    exact hmem k v hm (by simp [hki]) hku
  · intro st n pl now st2 resp h hs hnd
    obtain ⟨i, hi, hst⟩ := eventUpdate_success st n pl now st2 resp h hs
    obtain ⟨hmem, hskip, habs, hupd, hfst⟩ :=
      applyUpdateAt_fields st i pl now ["id"] hnd
    refine ⟨i, (applyUpdateAt st i pl now ["id"]).2, hi,
      hst.trans hfst, ?_, hskip "id" (by simp) (by decide), habs, hupd⟩
    intro k v hm hki hku
    exact hmem k v hm (by simp [hki]) hku
  · intro st n pl now st2 resp h hs hnd
    obtain ⟨i, hi, hst⟩ := jobUpdate_success st n pl now st2 resp h hs
    obtain ⟨hmem, hskip, habs, hupd, hfst⟩ :=
      applyUpdateAt_fields st i pl now ["id"] hnd
    refine ⟨i, (applyUpdateAt st i pl now ["id"]).2, hi,
      hst.trans hfst, ?_, hskip "id" (by simp) (by decide), habs, hupd⟩
    intro k v hm hki hku
    exact hmem k v hm (by simp [hki]) hku
  · intro st n pl now st2 resp h hs hnd
    obtain ⟨i, hi, hst⟩ := postUpdate_success st n pl now st2 resp h hs
    obtain ⟨hmem, hskip, habs, hupd, hfst⟩ :=
      applyUpdateAt_fields st i pl now ["id", "created_at"] hnd
    refine ⟨i, (applyUpdateAt st i pl now ["id", "created_at"]).2, hi,
      hst.trans hfst, ?_, hskip "id" (by simp) (by decide),
      hskip "created_at" (by simp) (by decide), habs, hupd⟩
    intro k v hm hki hkc hku
    exact hmem k v hm (by simp [hki, hkc]) hku

/-- Witness for `update_overwrites_named_fields`: a concrete alumni update of
the batch field on the three-record store succeeds and satisfies all the
frame conditions. -/
theorem update_overwrites_named_fields_witness :
    ∃ i r, i < alSt3.length
      ∧ (alumniUpdate alSt3 1 [("batch", Val.str "2021")] "t9").1 = alSt3.set i r
      ∧ (∀ k v, (k, v) ∈ [("batch", Val.str "2021")] → k ≠ "id" →
          k ≠ "updated_at" → lookupF r k = some v)
      ∧ lookupF r "id" = lookupF (alSt3.getD i []) "id"
      ∧ (∀ k, k ∉ keysOf [("batch", Val.str "2021")] → k ≠ "updated_at" →
          lookupF r k = lookupF (alSt3.getD i []) k)
      ∧ lookupF r "updated_at" = some (Val.str "t9") :=
  update_overwrites_named_fields.1 alSt3 1 [("batch", Val.str "2021")] "t9"
    (alumniUpdate alSt3 1 [("batch", Val.str "2021")] "t9").1
    (alumniUpdate alSt3 1 [("batch", Val.str "2021")] "t9").2
    rfl (by decide) (by decide)

theorem findUserScan_mem (st : List Rec) (em : String) (u : Rec)
    (h : findUserScan st em = .ok (some u)) : u ∈ st := by
  induction st with
  | nil => simp [findUserScan] at h
  | cons r t ih =>
    unfold findUserScan at h
    split at h
    · cases h
    · split at h
      · injection h with h1
        injection h1 with h2
        subst h2
        exact List.mem_cons_self _ _
      · exact List.mem_cons_of_mem _ (ih h)

/-- C8 (confirmed): a successful register (201) returns a body containing
message, user, and token, where the user object has no password key although
the newly stored record does; a successful login (200) likewise returns
message, user, and token, the user object being a stored record (which holds
a password key) with its password stripped. -/
theorem auth_responses_strip_password :
    (∀ st pl now st2 resp, register st pl now = (st2, resp) →
      resp.status = 201 →
      (lookupF resp.body "message").isSome = true
      ∧ (lookupF resp.body "token").isSome = true
      ∧ (∃ u, lookupF resp.body "user" = some (Val.dict u)
          ∧ lookupF u "password" = none)
      ∧ ∃ rec, st2 = st ++ [rec] ∧ (lookupF rec "password").isSome = true)
    ∧ (∀ st pl resp, login st pl = resp → resp.status = 200 →
      (lookupF resp.body "message").isSome = true
      ∧ (lookupF resp.body "token").isSome = true
      ∧ ∃ rec, rec ∈ st ∧ (lookupF rec "password").isSome = true
          ∧ lookupF resp.body "user"
              = some (Val.dict (rec.filter (fun kv => kv.1 ≠ "password")))
          ∧ lookupF (rec.filter (fun kv => kv.1 ≠ "password")) "password"
              = none) := by
  constructor
  · intro st pl now st2 resp h hs
    unfold register at h
    repeat' split at h
    all_goals cases h
    all_goals first
      | exact ⟨rfl, rfl, ⟨_, rfl, lookupF_filter_out _ _⟩, _, rfl, rfl⟩
      | simp [errResp] at hs
  · intro st pl resp h hs
    unfold login at h
    repeat' split at h
    all_goals cases h
    all_goals try simp [errResp] at hs
    rename_i hne vx se heqEm hcond xf u heqFind xp vp heqPw hok xi xe uid uem
      heqId heqEmail
    refine ⟨rfl, rfl, u, findUserScan_mem st (strLower se) u heqFind, ?_,
      rfl, lookupF_filter_out _ _⟩
    rw [heqPw]
    rfl

/-- Witness for `auth_responses_strip_password`: a concrete register then a
concrete login with the stored credentials. -/
theorem auth_responses_strip_password_witness :
    ((lookupF (register [] regPayloadLow "t1").2.body "message").isSome = true
      ∧ (lookupF (register [] regPayloadLow "t1").2.body "token").isSome = true
      ∧ (∃ u, lookupF (register [] regPayloadLow "t1").2.body "user"
            = some (Val.dict u) ∧ lookupF u "password" = none)
      ∧ ∃ rec, (register [] regPayloadLow "t1").1 = [] ++ [rec]
          ∧ (lookupF rec "password").isSome = true)
    ∧ ((lookupF (login (register [] regPayloadLow "t1").1
          [("email", Val.str "a@b.com"), ("password", Val.str "secret1")]).body
          "message").isSome = true
      ∧ (lookupF (login (register [] regPayloadLow "t1").1
          [("email", Val.str "a@b.com"), ("password", Val.str "secret1")]).body
          "token").isSome = true
      ∧ ∃ rec, rec ∈ (register [] regPayloadLow "t1").1
          ∧ (lookupF rec "password").isSome = true
          ∧ lookupF (login (register [] regPayloadLow "t1").1
              [("email", Val.str "a@b.com"), ("password", Val.str "secret1")]).body
              "user" = some (Val.dict (rec.filter (fun kv => kv.1 ≠ "password")))
          ∧ lookupF (rec.filter (fun kv => kv.1 ≠ "password")) "password"
              = none) :=
  ⟨auth_responses_strip_password.1 [] regPayloadLow "t1"
      (register [] regPayloadLow "t1").1 (register [] regPayloadLow "t1").2
      rfl rfl,
   auth_responses_strip_password.2 (register [] regPayloadLow "t1").1
      [("email", Val.str "a@b.com"), ("password", Val.str "secret1")]
      (login (register [] regPayloadLow "t1").1
        [("email", Val.str "a@b.com"), ("password", Val.str "secret1")])
      rfl (by decide)⟩

theorem lookupF_none_of_not_mem (r : Rec) (k : String)
    (h : k ∉ keysOf r) : lookupF r k = none := by
  induction r with
  | nil => rfl
  | cons hd t ih =>
    obtain ⟨k0, v0⟩ := hd
    have hne : k0 ≠ k := by
      intro he
      exact h (by simp [keysOf, he])
    have ht : k ∉ keysOf t := by
      intro hm
      exact h (by simp [keysOf] at hm ⊢; right; exact hm)
    simp [lookupF, hne, ih ht]

theorem lookupF_eraseK_ne (r : Rec) (f g : String) (h : g ≠ f) :
    lookupF (eraseK r f) g = lookupF r g := by
  induction r with
  | nil => rfl
  | cons hd t ih =>
    obtain ⟨k0, v0⟩ := hd
    by_cases hk : k0 = f
    · subst hk
      simp [eraseK, lookupF, Ne.symm h]
    · simp [eraseK, hk, lookupF, ih]

theorem lookupF_eraseK_self (r : Rec) (f : String)
    (hnd : (keysOf r).Nodup) : lookupF (eraseK r f) f = none := by
  induction r with
  | nil => rfl
  | cons hd t ih =>
    obtain ⟨k0, v0⟩ := hd
    have hnd2 : k0 ∉ keysOf t ∧ (keysOf t).Nodup := by
      have h := hnd
      simp only [keysOf, List.map_cons] at h
      exact List.nodup_cons.mp h
    by_cases hk : k0 = f
    · subst hk
      rw [show eraseK ((k0, v0) :: t) k0 = t by simp [eraseK]]
      exact lookupF_none_of_not_mem t k0 hnd2.1
    · simp [eraseK, hk, lookupF, ih hnd2.2]

theorem find?_congr' {α : Type} {p q : α → Bool} (l : List α)
    (h : ∀ x ∈ l, p x = q x) : l.find? p = l.find? q := by
  induction l with
  | nil => rfl
  | cons a t ih =>
    rw [List.find?_cons, List.find?_cons, h a (List.mem_cons_self a t),
      ih (fun x hx => h x (List.mem_cons_of_mem _ hx))]

theorem firstFalsy_some (req : List String) (pl : Rec) (f : String) (v : Val)
    (hf : f ∈ req) (hv : lookupF pl f = some v) (hfal : truthy v = false) :
    ∃ g, firstFalsy req pl = some g := by
  have hsome : (req.find? (fun g => ! truthy (getD pl g))).isSome = true := by
    rw [List.find?_isSome]
    refine ⟨f, hf, ?_⟩
    show (! truthy (getD pl f)) = true
    unfold getD
    rw [hv]
    simp [hfal]
  exact Option.isSome_iff_exists.mp hsome

theorem firstFalsy_erase (req : List String) (pl : Rec) (f : String) (v : Val)
    (hnd : (keysOf pl).Nodup) (hv : lookupF pl f = some v)
    (hfal : truthy v = false) :
    firstFalsy req (eraseK pl f) = firstFalsy req pl := by
  unfold firstFalsy
  apply find?_congr'
  intro g _
  by_cases hgf : g = f
  · subst hgf
    unfold getD
    rw [lookupF_eraseK_self pl g hnd, hv]
    show (! truthy ((none : Option Val).getD .null)) = (! truthy v)
    rw [show ((none : Option Val).getD .null) = Val.null from rfl, hfal]
    rfl
  · unfold getD
    rw [lookupF_eraseK_ne pl f g hgf]

/-- C9 (confirmed): for each create endpoint and for register, a required
field bound to a falsy value (0, false, "", null, empty list) behaves like an
absent one: the request fails 400 with "<field> is required" for the first
required field (in the collection's order) whose value is absent or falsy,
the store is unchanged, and — for a payload with distinct keys that stays
nonempty — replacing the falsy binding by outright omission produces the
identical result; in particular a donation with amount 0 yields "amount is
required", not the amount-range error. -/
theorem required_falsy_like_absent :
    (∀ st pl now f v, pl.isEmpty = false → (keysOf pl).Nodup →
      f ∈ ["email", "password", "name"] → lookupF pl f = some v →
      truthy v = false →
      (∃ g, firstFalsy ["email", "password", "name"] pl = some g
        ∧ register st pl now = (st, errResp 400 (g ++ " is required")))
      ∧ ((eraseK pl f).isEmpty = false →
          register st pl now = register st (eraseK pl f) now))
    ∧ (∀ st pl now f v, pl.isEmpty = false → (keysOf pl).Nodup →
      f ∈ ["name", "email", "batch", "department"] → lookupF pl f = some v →
      truthy v = false →
      (∃ g, firstFalsy ["name", "email", "batch", "department"] pl = some g
        ∧ alumniCreate st pl now = (st, errResp 400 (g ++ " is required")))
      ∧ ((eraseK pl f).isEmpty = false →
          alumniCreate st pl now = alumniCreate st (eraseK pl f) now))
    ∧ (∀ st pl now f v, pl.isEmpty = false → (keysOf pl).Nodup →
      f ∈ ["title", "description", "date", "location"] → lookupF pl f = some v →
      truthy v = false →
      (∃ g, firstFalsy ["title", "description", "date", "location"] pl = some g
        ∧ eventCreate st pl now = (st, errResp 400 (g ++ " is required")))
      ∧ ((eraseK pl f).isEmpty = false →
          eventCreate st pl now = eventCreate st (eraseK pl f) now))
    ∧ (∀ st pl now f v, pl.isEmpty = false → (keysOf pl).Nodup →
      f ∈ ["title", "company", "description", "location"] →
      lookupF pl f = some v → truthy v = false →
      (∃ g, firstFalsy ["title", "company", "description", "location"] pl
          = some g
        ∧ jobCreate st pl now = (st, errResp 400 (g ++ " is required")))
      ∧ ((eraseK pl f).isEmpty = false →
          jobCreate st pl now = jobCreate st (eraseK pl f) now))
    ∧ (∀ st pl now f v, pl.isEmpty = false → (keysOf pl).Nodup →
      f ∈ ["donor_name", "amount", "purpose"] → lookupF pl f = some v →
      truthy v = false →
      (∃ g, firstFalsy ["donor_name", "amount", "purpose"] pl = some g
        ∧ donationCreate st pl now = (st, errResp 400 (g ++ " is required")))
      ∧ ((eraseK pl f).isEmpty = false →
          donationCreate st pl now = donationCreate st (eraseK pl f) now))
    ∧ (∀ st pl now f v, pl.isEmpty = false → (keysOf pl).Nodup →
      f ∈ ["author_name", "content"] → lookupF pl f = some v →
      truthy v = false →
      (∃ g, firstFalsy ["author_name", "content"] pl = some g
        ∧ postCreate st pl now = (st, errResp 400 (g ++ " is required")))
      ∧ ((eraseK pl f).isEmpty = false →
          postCreate st pl now = postCreate st (eraseK pl f) now))
    ∧ (∀ st pl now f v, pl.isEmpty = false → (keysOf pl).Nodup →
      f ∈ ["sender_email", "recipient_email", "content"] →
      lookupF pl f = some v → truthy v = false →
      (∃ g, firstFalsy ["sender_email", "recipient_email", "content"] pl
          = some g
        ∧ messageCreate st pl now = (st, errResp 400 (g ++ " is required")))
      ∧ ((eraseK pl f).isEmpty = false →
          messageCreate st pl now = messageCreate st (eraseK pl f) now))
    ∧ (∀ st now, donationCreate st
        [("donor_name", Val.str "A"), ("amount", Val.num (.fin 0 1)),
         ("purpose", Val.str "p")] now
        = (st, errResp 400 "amount is required")) := by
  refine ⟨?_, ?_, ?_, ?_, ?_, ?_, ?_, fun st now => rfl⟩
  all_goals
    intro st pl now f v hne hnd hf hv hfal
  all_goals
    obtain ⟨g, hg⟩ := firstFalsy_some _ pl f v hf hv hfal
  all_goals
    have hg' := (firstFalsy_erase _ pl f v hnd hv hfal).trans hg
  · exact ⟨⟨g, hg, by simp [register, hne, hg]⟩,
      fun hne' => by simp [register, hne, hne', hg, hg']⟩
  · exact ⟨⟨g, hg, by simp [alumniCreate, hne, hg]⟩,
      fun hne' => by simp [alumniCreate, hne, hne', hg, hg']⟩
  · exact ⟨⟨g, hg, by simp [eventCreate, hne, hg]⟩,
      fun hne' => by simp [eventCreate, hne, hne', hg, hg']⟩
  · exact ⟨⟨g, hg, by simp [jobCreate, hne, hg]⟩,
      fun hne' => by simp [jobCreate, hne, hne', hg, hg']⟩
  · exact ⟨⟨g, hg, by simp [donationCreate, hne, hg]⟩,
      fun hne' => by simp [donationCreate, hne, hne', hg, hg']⟩
  · exact ⟨⟨g, hg, by simp [postCreate, hne, hg]⟩,
      fun hne' => by simp [postCreate, hne, hne', hg, hg']⟩
  · exact ⟨⟨g, hg, by simp [messageCreate, hne, hg]⟩,
      fun hne' => by simp [messageCreate, hne, hne', hg, hg']⟩

/-- Witness for `required_falsy_like_absent`: a donation payload with amount
bound to 0 answers "amount is required" and behaves exactly like the payload
without an amount field. -/
theorem required_falsy_like_absent_witness :
    (∃ g, firstFalsy ["donor_name", "amount", "purpose"]
        [("donor_name", Val.str "A"), ("amount", Val.num (.fin 0 1)),
         ("purpose", Val.str "p")] = some g
      ∧ donationCreate [] [("donor_name", Val.str "A"),
          ("amount", Val.num (.fin 0 1)), ("purpose", Val.str "p")] "t0"
        = ([], errResp 400 (g ++ " is required")))
    ∧ ((eraseK [("donor_name", Val.str "A"), ("amount", Val.num (.fin 0 1)),
          ("purpose", Val.str "p")] "amount").isEmpty = false →
        donationCreate [] [("donor_name", Val.str "A"),
            ("amount", Val.num (.fin 0 1)), ("purpose", Val.str "p")] "t0"
          = donationCreate []
              (eraseK [("donor_name", Val.str "A"),
                ("amount", Val.num (.fin 0 1)), ("purpose", Val.str "p")]
                "amount") "t0") :=
  required_falsy_like_absent.2.2.2.2.1 [] _ "t0" "amount" (Val.num (.fin 0 1))
    rfl (by decide) (by decide) rfl rfl

theorem strLtB_asymm (xs : List Char) :
    ∀ ys, strLtB xs ys = true → strLtB ys xs = false := by
  induction xs with
  | nil =>
    intro ys h
    cases ys with
    | nil => simp [strLtB] at h
    | cons b t => simp [strLtB]
  | cons a xst ih =>
    intro ys h
    cases ys with
    | nil => simp [strLtB] at h
    | cons b yst =>
      unfold strLtB at h ⊢
      by_cases hab : a < b
      · rw [if_neg (lt_asymm hab), if_pos hab]
      · rw [if_neg hab] at h
        by_cases hba : b < a
        · rw [if_pos hba] at h
          cases h
        · rw [if_neg hba] at h
          rw [if_neg hba, if_neg hab]
          exact ih yst h

theorem strLtB_trans (xs : List Char) :
    ∀ ys zs, strLtB xs ys = true → strLtB ys zs = true →
      strLtB xs zs = true := by
  induction xs with
  | nil =>
    intro ys zs h1 h2
    cases ys with
    | nil => simp [strLtB] at h1
    | cons b yst =>
      cases zs with
      | nil => simp [strLtB] at h2
      | cons c zst => rfl
  | cons a xst ih =>
    intro ys zs h1 h2
    cases ys with
    | nil => simp [strLtB] at h1
    | cons b yst =>
      cases zs with
      | nil => simp [strLtB] at h2
      | cons c zst =>
        unfold strLtB at h1 h2 ⊢
        by_cases hab : a < b
        · by_cases hbc : b < c
          · rw [if_pos (lt_trans hab hbc)]
          · by_cases hcb : c < b
            · rw [if_neg hbc, if_pos hcb] at h2
              cases h2
            · have hbc' : b = c := le_antisymm (not_lt.mp hcb) (not_lt.mp hbc)
              subst hbc'
              rw [if_pos hab]
        · by_cases hba : b < a
          · rw [if_neg hab, if_pos hba] at h1
            cases h1
          · have hab' : a = b := le_antisymm (not_lt.mp hba) (not_lt.mp hab)
            subst hab'
            rw [if_neg hab, if_neg hba] at h1
            by_cases hac : a < c
            · rw [if_pos hac]
            · by_cases hca : c < a
              · rw [if_neg hac, if_pos hca] at h2
                cases h2
              · have hac' : a = c := le_antisymm (not_lt.mp hca) (not_lt.mp hac)
                subst hac'
                rw [if_neg hac, if_neg hca] at h2
                rw [if_neg hac, if_neg hca]
                exact ih yst zst h1 h2

theorem strLtB_conn (xs : List Char) :
    ∀ ys, strLtB xs ys = false → strLtB ys xs = false → xs = ys := by
  induction xs with
  | nil =>
    intro ys h1 _
    cases ys with
    | nil => rfl
    | cons b t => simp [strLtB] at h1
  | cons a xst ih =>
    intro ys h1 h2
    cases ys with
    | nil => simp [strLtB] at h2
    | cons b yst =>
      unfold strLtB at h1 h2
      by_cases hab : a < b
      · rw [if_pos hab] at h1
        cases h1
      · by_cases hba : b < a
        · rw [if_pos hba] at h2
          cases h2
        · rw [if_neg hab, if_neg hba] at h1
          rw [if_neg hba, if_neg hab] at h2
          have hab' : a = b := le_antisymm (not_lt.mp hba) (not_lt.mp hab)
          rw [hab', ih yst h1 h2]

theorem strLeB_total (x y : String) :
    strLeB x y = true ∨ strLeB y x = true := by
  unfold strLeB
  cases hb : strLtB y.data x.data with
  | false => exact Or.inl rfl
  | true =>
    right
    rw [strLtB_asymm _ _ hb]
    rfl

theorem strLeB_trans (x y z : String) (h1 : strLeB x y = true)
    (h2 : strLeB y z = true) : strLeB x z = true := by
  unfold strLeB at h1 h2 ⊢
  rw [Bool.not_eq_true'] at h1 h2 ⊢
  by_cases hzx : strLtB z.data x.data = true
  · cases hyz : strLtB y.data z.data with
    | true =>
      have h := strLtB_trans _ _ _ hyz hzx
      rw [h] at h1
      cases h1
    | false =>
      have heq := strLtB_conn _ _ h2 hyz
      rw [heq] at hzx
      rw [hzx] at h1
      cases h1
  · exact Bool.eq_false_iff.mpr hzx

theorem ordInsert_perm (a : Rec) (l : List Rec) :
    List.Perm (ordInsert a l) (a :: l) := by
  induction l with
  | nil => exact List.Perm.refl _
  | cons b t ih =>
    unfold ordInsert
    split
    · exact List.Perm.refl _
    · exact (ih.cons b).trans (List.Perm.swap a b t)

theorem sortDesc_perm (l : List Rec) : List.Perm (sortDesc l) l := by
  induction l with
  | nil => exact List.Perm.refl _
  | cons a t ih => exact (ordInsert_perm a (sortDesc t)).trans (ih.cons a)

theorem ordInsert_pairwise (a : Rec) (l : List Rec)
    (h : l.Pairwise postGe) : (ordInsert a l).Pairwise postGe := by
  induction l with
  | nil => simp [ordInsert]
  | cons b t ih =>
    obtain ⟨hb, ht⟩ := List.pairwise_cons.mp h
    unfold ordInsert
    split
    · next hle =>
      refine List.pairwise_cons.mpr ⟨?_, h⟩
      intro x hx
      rcases List.mem_cons.mp hx with rfl | hxt
      · exact hle
      · exact strLeB_trans _ _ _ (hb x hxt) hle
    · next hle =>
      refine List.pairwise_cons.mpr ⟨?_, ih ht⟩
      intro x hx
      have hx' : x ∈ a :: t := (ordInsert_perm a t).mem_iff.mp hx
      rcases List.mem_cons.mp hx' with rfl | hxt
      · rcases strLeB_total (createdKey b) (createdKey x) with hc | hc
        · exact absurd hc hle
        · exact hc
      · exact hb x hxt

theorem sortDesc_pairwise (l : List Rec) : (sortDesc l).Pairwise postGe := by
  induction l with
  | nil => exact List.Pairwise.nil
  | cons a t ih => exact ordInsert_pairwise a (sortDesc t) ih

theorem pairwise_strict_of_nodup (out : List Rec)
    (hs : out.Pairwise postGe) (hn : (out.map createdKey).Nodup) :
    StrictDesc out := by
  unfold StrictDesc
  have hn' : out.Pairwise (fun a b => createdKey a ≠ createdKey b) :=
    List.pairwise_map.mp hn
  refine (hs.and hn').imp ?_
  intro a b hab
  obtain ⟨hge, hne⟩ := hab
  unfold postGe strLeB at hge
  rw [Bool.not_eq_true'] at hge
  show strLtB (createdKey b).data (createdKey a).data = true
  cases hlt : strLtB (createdKey b).data (createdKey a).data with
  | true => rfl
  | false =>
    have hda := strLtB_conn _ _ hge hlt
    have hkey : createdKey a = createdKey b := congrArg String.mk hda
    exact absurd hkey hne

theorem filterMap_dicts (xs : List Rec) :
    (xs.map Val.dict).filterMap (fun v =>
      match v with
      | Val.dict r => some r
      | _ => none) = xs := by
  induction xs with
  | nil => rfl
  | cons a t ih =>
    simp only [List.map_cons, List.filterMap_cons]
    rw [ih]

theorem postList_success (st : List Rec) (ptype author : String) (resp : Resp)
    (h : postListOp st ptype author = resp) (hs : resp.status = 200) :
    ∃ l, postFiltered st ptype author = .ok l
      ∧ respPosts resp = sortDesc l := by
  unfold postListOp at h
  cases hf : postFiltered st ptype author with
  | error e =>
    simp only [hf] at h
    cases h
    simp [errResp] at hs
  | ok f2 =>
    simp only [hf] at h
    cases hk : sortKeysOk f2 with
    | error e =>
      simp only [hk] at h
      cases h
      simp [errResp] at hs
    | ok u =>
      simp only [hk] at h
      cases h
      exact ⟨f2, rfl, filterMap_dicts _⟩

theorem postCreate_created (st : List Rec) (pl : Rec) (now : String)
    (st2 : List Rec) (resp : Resp)
    (h : postCreate st pl now = (st2, resp)) (hs : resp.status = 201) :
    ∃ r, st2 = st ++ [r] ∧ lookupF r "created_at" = some (Val.str now) := by
  unfold postCreate at h
  repeat' split at h
  all_goals cases h
  all_goals first
    | exact ⟨_, rfl, rfl⟩
    | simp [errResp] at hs

/-- C7 (counterexample): two posts created within the same timer tick carry
the same created_at stamp; the list call succeeds and — the sort being
stable — returns them in creation order, which is NOT strictly descending by
created_at (the keys are equal), refuting "sorted strictly by created_at in
descending order" for every state. -/
theorem posts_same_timestamp_not_strictly_sorted :
    (postListOp postStSameT "" "").status = 200
    ∧ respPosts (postListOp postStSameT "" "")
        = [postStSameT.getD 0 [], postStSameT.getD 1 []]
    ∧ ¬ StrictDesc (respPosts (postListOp postStSameT "" "")) := by
  refine ⟨rfl, rfl, ?_⟩
  intro h
  rw [show respPosts (postListOp postStSameT "" "")
      = [postStSameT.getD 0 [], postStSameT.getD 1 []] from rfl] at h
  obtain ⟨h1, _⟩ := List.pairwise_cons.mp h
  have hlt := h1 _ (List.mem_singleton_self _)
  exact absurd hlt (by decide)

/-- C7 (amended): for every posts state and every type/author filter, a 200
response from the posts list is the stable descending sort of the filtered
posts by created_at: it is a permutation of the filtered posts, sorted
(non-strictly) by created_at descending, and strictly descending whenever
the filtered posts' created_at stamps are pairwise distinct; in particular
two posts created in sequence from the empty collection with created_at
stamps t1 < t2 come back in reverse creation order. -/
theorem posts_list_sorted_desc :
    (∀ st ptype author resp, postListOp st ptype author = resp →
      resp.status = 200 →
      ∃ l, postFiltered st ptype author = .ok l
        ∧ respPosts resp = sortDesc l
        ∧ (respPosts resp).Pairwise postGe
        ∧ List.Perm (respPosts resp) l
        ∧ ((l.map createdKey).Nodup → StrictDesc (respPosts resp)))
    ∧ (∀ pl1 pl2 t1 t2 st1 r1 st2 r2,
        postCreate [] pl1 t1 = (st1, r1) → r1.status = 201 →
        postCreate st1 pl2 t2 = (st2, r2) → r2.status = 201 →
        strLtS t1 t2 = true →
        ∃ a b, st2 = [a, b] ∧ createdKey a = t1 ∧ createdKey b = t2
          ∧ respPosts (postListOp st2 "" "") = [b, a]) := by
  constructor
  · intro st ptype author resp h hs
    obtain ⟨l, hf, hr⟩ := postList_success st ptype author resp h hs
    refine ⟨l, hf, hr, ?_, ?_, ?_⟩
    · rw [hr]
      exact sortDesc_pairwise l
    · rw [hr]
      exact sortDesc_perm l
    · intro hn
      refine pairwise_strict_of_nodup _ (hr ▸ sortDesc_pairwise l) ?_
      rw [hr]
      exact (((sortDesc_perm l).map createdKey).nodup_iff).mpr hn
  · intro pl1 pl2 t1 t2 st1 r1 st2 r2 h1 hs1 h2 hs2 ht
    obtain ⟨a, ha1, hka⟩ := postCreate_created [] pl1 t1 st1 r1 h1 hs1
    obtain ⟨b, hb1, hkb⟩ := postCreate_created st1 pl2 t2 st2 r2 h2 hs2
    subst ha1
    subst hb1
    have hkaK : createdKey a = t1 := by
      unfold createdKey
      rw [hka]
    have hkbK : createdKey b = t2 := by
      unfold createdKey
      rw [hkb]
    refine ⟨a, b, rfl, hkaK, hkbK, ?_⟩
    have hle : strLeB (createdKey b) (createdKey a) = false := by
      rw [hkaK, hkbK]
      unfold strLeB
      rw [show strLtB t1.data t2.data = true from ht]
      rfl
    have hsort : sortDesc [a, b] = [b, a] := by
      show ordInsert a (ordInsert b []) = [b, a]
      show ordInsert a [b] = [b, a]
      unfold ordInsert
      rw [if_neg (by rw [hle]; exact Bool.false_ne_true)]
      rfl
    have hf : postFiltered [a, b] "" "" = .ok [a, b] := rfl
    have hkOk : sortKeysOk [a, b] = .ok () := by
      unfold sortKeysOk
      rw [if_pos (by simp [hka, hkb]), if_pos (by simp [hka, hkb])]
    rw [show ([] : List Rec) ++ [a] ++ [b] = [a, b] from rfl]
    unfold postListOp
    simp only [hf, hkOk]
    show (((sortDesc [a, b]).map Val.dict).filterMap (fun v =>
      match v with
      | Val.dict r => some r
      | _ => none)) = [b, a]
    rw [hsort]
    exact filterMap_dicts [b, a]

/-- Witness for `posts_list_sorted_desc`: two concrete posts created at "t1"
then "t2" come back from the list as [second, first]. -/
theorem posts_list_sorted_desc_witness :
    ∃ a b, (postCreate ((postCreate [] postPayloadA "t1").1)
        postPayloadB "t2").1 = [a, b]
      ∧ createdKey a = "t1" ∧ createdKey b = "t2"
      ∧ respPosts (postListOp ((postCreate ((postCreate [] postPayloadA
          "t1").1) postPayloadB "t2").1) "" "") = [b, a] :=
  posts_list_sorted_desc.2 postPayloadA postPayloadB "t1" "t2"
    (postCreate [] postPayloadA "t1").1 (postCreate [] postPayloadA "t1").2
    (postCreate ((postCreate [] postPayloadA "t1").1) postPayloadB "t2").1
    (postCreate ((postCreate [] postPayloadA "t1").1) postPayloadB "t2").2
    rfl rfl rfl rfl (by decide)

end App
